import Mathlib

/-!
# Page persistence of the document store (`core/api/request/page.go`)

A shallow embedding of the `Persister` page operations.  The relational store is
a record of tables, each table a list of rows in insertion order.  A statement
that the Go code executes against the store is a function on that record; a
statement that can fail takes its outcome from a `Faults` record, the
environment's choice of which prepare/exec calls return an error.  A failed
statement leaves the tables as they were.

Go's `error` results are `Option String` (`none` is `nil`).  `UpdatePage` and
`AddPage` return the store as the caller's transaction sees it when the function
returns, together with the returned error: the functions themselves never roll
anything back.  A read through the global handle `Db` sees the committed tables,
not what the caller's transaction has written since: the read of the maximum
in `AddPage` and `GetNextPageSequence` takes that state as its own argument
`db`, and the store argument of the reads `GetPages`, `GetPagesWhereIn`,
`GetDocumentRevisions` and `GetPageRevisions` is the state `Db` sees.

The Keycloak handlers of `core/api/endpoint/keycloak.go` are functions of a record
of their collaborators' results (library calls, persister reads, helpers of
other files); they return what the handler answered and the writes it asked for.

`time.Now().UTC()` is the parameter `now`.  The `sequence` column (`float64` in
Go) is an exact rational; the `revisions` counter is an unbounded natural
number.
-/

namespace Documize

/-- Row of table `page`, the columns written by the INSERT of `AddPage`. -/
structure Page where
  RefID : String
  OrgID : String
  DocumentID : String
  UserID : String
  ContentType : String
  PageType : String
  BlockID : String
  Level : Int
  Sequence : ℚ
  Title : String
  Body : String
  Revisions : Nat
  Created : Nat
  Revised : Nat
deriving DecidableEq

/-- Row of table `pagemeta`, the columns written by the second INSERT of `AddPage`. -/
structure PageMeta where
  PageID : String
  OrgID : String
  UserID : String
  DocumentID : String
  RawBody : String
  Config : String
  ExternalSource : Bool
  Created : Nat
  Revised : Nat
deriving DecidableEq

/-- Row of table `revision`, the columns of the INSERT ... SELECT of `UpdatePage`. -/
structure Revision where
  RefID : String
  OrgID : String
  DocumentID : String
  OwnerID : String
  PageID : String
  UserID : String
  ContentType : String
  PageType : String
  Title : String
  Body : String
  RawBody : String
  Config : String
  Created : Nat
  Revised : Nat
deriving DecidableEq

/-- Modelled from the spec: the `entity.Link` record (its declaration is in package
`entity`, outside these source files).  It carries the fields `UpdatePage` reads or writes, which are
the attributes the data model lists for a ContentLink: source document/page id,
target id, link type, org/user id and the orphan flag. -/
structure Link where
  OrgID : String
  UserID : String
  SourceDocumentID : String
  SourcePageID : String
  TargetID : String
  LinkType : String
  Orphan : Bool
deriving DecidableEq

/-- Modelled from the spec: a notification received by the Search Index Sync
collaborator (`searches`), keyed by organization: one constructor for each
operation the page functions call. -/
inductive SearchEvent where
  | Add (orgID : String) (page : Page) (refID : String)
  | Update (orgID : String) (page : Page)
  | UpdateSequence (orgID documentID pageID : String) (sequence : ℚ)
  | UpdateLevel (orgID documentID pageID : String) (level : Int)
  | Delete (orgID documentID pageID : String)
deriving DecidableEq

/-- The store: the four tables and the notifications the search index received. -/
structure Store where
  page : List Page
  pagemeta : List PageMeta
  revision : List Revision
  link : List Link
  search : List SearchEvent
deriving DecidableEq

/-- The ambient request context `p.Context`. -/
structure Context where
  OrgID : String
  UserID : String
deriving DecidableEq

/-- The argument of `AddPage` (`models.PageModel`): a page and its meta record. -/
structure PageModel where
  Page : Page
  Meta : PageMeta
deriving DecidableEq

/-- The environment's choice of failures: for each prepare/exec pair, and for each
call into a collaborator, the error it returns (`none`: it succeeds).  A content
link insert may fail depending on the link being inserted. -/
structure Faults where
  maxSequenceRead : Option String
  pageInsert : Option String
  searchAdd : Option String
  pageMetaInsert : Option String
  revisionInsert : Option String
  pageUpdate : Option String
  searchUpdate : Option String
  counterUpdate : Option String
  getPageLinks : Option String
  deleteSourcePageLinks : Option String
  addContentLink : Link → Option String
  sequenceUpdate : Option String
  searchUpdateSequence : Option String
  levelUpdate : Option String
  searchUpdateLevel : Option String
  pageDelete : Option String
  pageMetaDelete : Option String
  searchDelete : Option String
  markOrphanPageLink : Option String
  deletePageRevisions : Option String
  pagesRead : Option String
  revisionsRead : Option String
  /-- What `p.Base.DeleteWhere` does with a statement text in which a pasted value holds
  a quote or a backslash, so that the text is not the delete it was written to
  be: the outcome the database gives for that text. -/
  deleteWhereText : String → Store → Store × Option String

/-- No statement and no collaborator fails; a statement text spoilt by a pasted value
is taken to delete nothing. -/
def noFaults : Faults :=
  ⟨none, none, none, none, none, none, none, none, none, none, fun _ => none,
    none, none, none, none, none, none, none, none, none, none, none, fun _ s => (s, none)⟩

/-! ## AddPage -/

/-- SQL `max(sequence)` over the selected rows: NULL (`none`) when there is no row. -/
def maxSequence : List Page → Option ℚ
  | [] => none
  | r :: rs =>
    match maxSequence rs with
    | none => some r.Sequence
    | some m => some (max r.Sequence m)

/-- The query `SELECT max(sequence) FROM page WHERE orgid=? AND documentid=?` followed
by `row.Scan(&maxSeq)`: the scan fails when the query fails and when the
aggregate is NULL, which a `float64` cannot receive.  The query runs on the global
handle `Db`, not on the caller's transaction: `db` is the table state that handle
sees, which holds no row the caller's transaction has written and not yet
committed.  The `float64` maximum is read as an exact rational. -/
def scanMaxSequence (f : Faults) (ctx : Context) (db : Store) (documentID : String) :
    Except String ℚ :=
  match f.maxSequenceRead with
  | some e => Except.error e
  | none =>
    match maxSequence (db.page.filter
        (fun r => r.OrgID = ctx.OrgID ∧ r.DocumentID = documentID)) with
    | none => Except.error "converting NULL to float64 is unsupported"
    | some m => Except.ok m

/-- The sequence `AddPage` stores: the caller's when it is not 0, else twice the
maximum scanned through `Db`, 2048 standing in for the maximum when the scan
failed.  The product is exact here; the `float64` product of the code is +Inf for
a maximum above about 9e307. -/
def addPageSequence (f : Faults) (ctx : Context) (db : Store) (page : Page) : ℚ :=
  if page.Sequence = 0 then
    (match scanMaxSequence f ctx db page.DocumentID with
      | Except.ok m => m
      | Except.error _ => 2048) * 2
  else page.Sequence

/-- The function `Persister.AddPage`.  The maximum is read through the global handle
`Db`, whose view of the tables is `db`; the three writes go through
`p.Context.Transaction`, whose view is `s`.  The two are the same state only when
the caller's transaction has written nothing yet. -/
def AddPage (f : Faults) (ctx : Context) (now : Nat) (db s : Store) (model : PageModel) :
    Store × Option String :=
  let page : Page := { model.Page with
    OrgID := ctx.OrgID, UserID := ctx.UserID, Created := now, Revised := now }
  let pmeta : PageMeta := { model.Meta with
    OrgID := ctx.OrgID, UserID := ctx.UserID, DocumentID := model.Page.DocumentID,
    Created := now, Revised := now }
  let page : Page := { page with Sequence := addPageSequence f ctx db page }
  match f.pageInsert with
  | some e => (s, some e)
  | none =>
    let s1 : Store := { s with page := s.page ++ [page] }
    -- `_ = searches.Add(...)`: the error is dropped
    let s2 : Store :=
      match f.searchAdd with
      | some _ => s1
      | none => { s1 with search := s1.search ++ [SearchEvent.Add ctx.OrgID page page.RefID] }
    match f.pageMetaInsert with
    | some e => (s2, some e)
    | none => ({ s2 with pagemeta := s2.pagemeta ++ [pmeta] }, none)

/-! ## UpdatePage -/

/-- The rows selected by the revision INSERT: `FROM page a, pagemeta b WHERE a.refid=?
AND a.refid=b.pageid`, one row per joined pair (the statement has no `orgid`
condition). -/
def revisionRows (s : Store) (pageRefID refID userID : String) (now : Nat) : List Revision :=
  (s.page.filter (fun a => a.RefID = pageRefID)).flatMap (fun a =>
    (s.pagemeta.filter (fun b => a.RefID = b.PageID)).map (fun b =>
      { RefID := refID, OrgID := a.OrgID, DocumentID := a.DocumentID, OwnerID := a.UserID,
        PageID := a.RefID, UserID := userID, ContentType := a.ContentType,
        PageType := a.PageType, Title := a.Title, Body := a.Body, RawBody := b.RawBody,
        Config := b.Config, Created := now, Revised := now }))

/-- The statement `INSERT INTO revision (...) SELECT ...` of `UpdatePage`. -/
def insertRevision (f : Faults) (now : Nat) (s : Store) (page : Page)
    (refID userID : String) : Store × Option String :=
  match f.revisionInsert with
  | some e => (s, some e)
  | none =>
    ({ s with revision := s.revision ++ revisionRows s page.RefID refID userID now }, none)

/-- One row under `UPDATE page SET documentid=:documentid, level=:level, title=:title,
body=:body, revisions=:revisions, sequence=:sequence, revised=:revised WHERE
orgid=:orgid AND refid=:refid`, every named parameter taken from `page`. -/
def updatedRow (page : Page) (r : Page) : Page :=
  if r.OrgID = page.OrgID ∧ r.RefID = page.RefID then
    { r with DocumentID := page.DocumentID, Level := page.Level, Title := page.Title,
             Body := page.Body, Revisions := page.Revisions, Sequence := page.Sequence,
             Revised := page.Revised }
  else r

/-- The named UPDATE of the page row. -/
def updatePageRow (f : Faults) (s : Store) (page : Page) : Store × Option String :=
  match f.pageUpdate with
  | some e => (s, some e)
  | none => ({ s with page := s.page.map (updatedRow page) }, none)

/-- Modelled from the spec: `searches.Update` of the Search Index Sync collaborator,
which receives the update notification keyed by organization; when it fails it
has received nothing. -/
def searchesUpdate (f : Faults) (ctx : Context) (s : Store) (page : Page) :
    Store × Option String :=
  match f.searchUpdate with
  | some e => (s, some e)
  | none => ({ s with search := s.search ++ [SearchEvent.Update ctx.OrgID page] }, none)

/-- One row under `UPDATE page SET revisions=revisions+1 WHERE orgid=? AND refid=?`. -/
def incrementedRow (ctx : Context) (refID : String) (r : Page) : Page :=
  if r.OrgID = ctx.OrgID ∧ r.RefID = refID then { r with Revisions := r.Revisions + 1 } else r

/-- The revisions counter UPDATE. -/
def incrementRevisions (f : Faults) (ctx : Context) (s : Store) (page : Page) :
    Store × Option String :=
  match f.counterUpdate with
  | some e => (s, some e)
  | none => ({ s with page := s.page.map (incrementedRow ctx page.RefID) }, none)

/-- Modelled from the spec: `Persister.GetPageLinks(documentID, pageID)`, which fetches
the previously stored links of the page: the links of the context's organization
whose source is that page of that document, in table order.  A failed read
returns no link. -/
def GetPageLinks (f : Faults) (ctx : Context) (s : Store) (documentID pageID : String) :
    List Link × Option String :=
  match f.getPageLinks with
  | some e => ([], some e)
  | none =>
    (s.link.filter (fun l => l.OrgID = ctx.OrgID ∧ l.SourceDocumentID = documentID ∧
      l.SourcePageID = pageID), none)

/-- Modelled from the spec: `Persister.DeleteSourcePageLinks(pageID)`, which deletes all
stored source links of the page, within the context's organization as the
sibling `DeletePageRevisions` does for revisions.  (The row count it also
returns is dropped by both callers.) -/
def DeleteSourcePageLinks (f : Faults) (ctx : Context) (s : Store) (pageID : String) :
    Store × Option String :=
  match f.deleteSourcePageLinks with
  | some e => (s, some e)
  | none =>
    let kept := s.link.filter (fun l => !decide (l.OrgID = ctx.OrgID ∧ l.SourcePageID = pageID))
    ({ s with link := kept }, none)

/-- Modelled from the spec: `Persister.AddContentLink(link)`, which inserts the link
into the content-link table. -/
def AddContentLink (f : Faults) (s : Store) (l : Link) : Store × Option String :=
  match f.addContentLink l with
  | some e => (s, some e)
  | none => ({ s with link := s.link ++ [l] }, none)

/-- The inner loop of `UpdatePage`: the first previous link with the same target and
type gives its orphan flag, and the loop breaks. -/
def carryOrphan (l : Link) : List Link → Link
  | [] => l
  | p :: ps =>
    if l.TargetID = p.TargetID ∧ l.LinkType = p.LinkType then { l with Orphan := p.Orphan }
    else carryOrphan l ps

/-- The body of the outer loop of `UpdatePage` up to the save: stamp the link, clear
the target of a document link, carry the orphan flag forward. -/
def prepareLink (ctx : Context) (page : Page) (previousLinks : List Link) (l : Link) : Link :=
  let l : Link := { l with
    Orphan := false, OrgID := ctx.OrgID, UserID := ctx.UserID,
    SourceDocumentID := page.DocumentID, SourcePageID := page.RefID }
  let l : Link := if l.LinkType = "document" then { l with TargetID := "" } else l
  carryOrphan l previousLinks

/-- The outer loop of `UpdatePage`: save each link, return at the first failed insert. -/
def saveLinks (f : Faults) (ctx : Context) (page : Page) (previousLinks : List Link) :
    List Link → Store → Store × Option String
  | [], s => (s, none)
  | l :: rest, s =>
    match AddContentLink f s (prepareLink ctx page previousLinks l) with
    | (s1, some e) => (s1, some e)
    | (s1, none) => saveLinks f ctx page previousLinks rest s1

/-- The link recomputation of `UpdatePage` (from `link.GetContentLinks` to the end).
The Link Extractor `GetContentLinks`, a pure function of the body, is a
parameter.  The errors of the read and of the delete are dropped. -/
def recomputeLinks (GetContentLinks : String → List Link) (f : Faults) (ctx : Context)
    (s : Store) (page : Page) : Store × Option String :=
  let links := GetContentLinks page.Body
  let previousLinks := (GetPageLinks f ctx s page.DocumentID page.RefID).1
  let s1 := (DeleteSourcePageLinks f ctx s page.RefID).1
  saveLinks f ctx page previousLinks links s1

/-- The function `Persister.UpdatePage`. -/
def UpdatePage (GetContentLinks : String → List Link) (f : Faults) (ctx : Context)
    (now : Nat) (s : Store) (page : Page) (refID userID : String) (skipRevision : Bool) :
    Store × Option String :=
  let page : Page := { page with Revised := now }
  -- Store revision history
  match (if skipRevision then (s, none) else insertRevision f now s page refID userID) with
  | (s1, some e) => (s1, some e)
  | (s1, none) =>
    -- Update page
    match updatePageRow f s1 page with
    | (s2, some e) => (s2, some e)
    | (s2, none) =>
      match searchesUpdate f ctx s2 page with
      | (s3, some e) => (s3, some e)
      | (s3, none) =>
        -- Update revisions counter
        match (if skipRevision then (s3, none) else incrementRevisions f ctx s3 page) with
        | (s4, some e) => (s4, some e)
        | (s4, none) => recomputeLinks GetContentLinks f ctx s4 page

/-- The tables once the revision insert of `UpdatePage` has taken effect (nothing, when
revisions are skipped). -/
def afterRevision (now : Nat) (s : Store) (page : Page) (refID userID : String)
    (skipRevision : Bool) : Store :=
  if skipRevision then s
  else { s with revision := s.revision ++ revisionRows s page.RefID refID userID now }

/-- The tables once the page UPDATE of `UpdatePage` has taken effect as well. -/
def afterPageUpdate (now : Nat) (s : Store) (page : Page) (refID userID : String)
    (skipRevision : Bool) : Store :=
  { afterRevision now s page refID userID skipRevision with
    page := (afterRevision now s page refID userID skipRevision).page.map
      (updatedRow { page with Revised := now }) }

/-- The tables and the search index once `searches.Update` has been notified as well. -/
def afterSearchUpdate (ctx : Context) (now : Nat) (s : Store) (page : Page)
    (refID userID : String) (skipRevision : Bool) : Store :=
  { afterPageUpdate now s page refID userID skipRevision with
    search := (afterPageUpdate now s page refID userID skipRevision).search ++
      [SearchEvent.Update ctx.OrgID { page with Revised := now }] }

/-- The tables once the revisions counter UPDATE has taken effect as well (nothing more,
when revisions are skipped). -/
def afterCounter (ctx : Context) (now : Nat) (s : Store) (page : Page)
    (refID userID : String) (skipRevision : Bool) : Store :=
  if skipRevision then afterSearchUpdate ctx now s page refID userID skipRevision
  else
    { afterSearchUpdate ctx now s page refID userID skipRevision with
      page := (afterSearchUpdate ctx now s page refID userID skipRevision).page.map
        (incrementedRow ctx page.RefID) }

/-- The links `GetPageLinks` hands to its caller, as a function of the link table. -/
def linksRead (f : Faults) (ctx : Context) (links : List Link) (d p : String) : List Link :=
  match f.getPageLinks with
  | some _ => []
  | none =>
    links.filter (fun l => l.OrgID = ctx.OrgID ∧ l.SourceDocumentID = d ∧ l.SourcePageID = p)

/-- The link table `DeleteSourcePageLinks` leaves, as a function of the link table. -/
def linksKept (f : Faults) (ctx : Context) (links : List Link) (p : String) : List Link :=
  match f.deleteSourcePageLinks with
  | some _ => links
  | none => links.filter (fun l => !decide (l.OrgID = ctx.OrgID ∧ l.SourcePageID = p))

/-- The target id under the edge case policy of the spec: a link whose type is
"document" has its target id cleared. -/
def clearedTarget (l : Link) : String :=
  if l.LinkType = "document" then "" else l.TargetID

/-- The carry-forward rule in the words of the spec, made deterministic: the orphan
flag of the first previous link with the pair (target `t`, type `ty`), and
not-orphan when no previous link has that pair. -/
def carriedOrphan (prev : List Link) (t ty : String) : Bool :=
  match prev.find? (fun p => decide (t = p.TargetID ∧ ty = p.LinkType)) with
  | some p => p.Orphan
  | none => false

/-! ## The other page operations -/

/-- The function `Persister.GetNextPageSequence`: the named result `err` keeps what
`row.Scan` returned.  The read goes through `Db`, whose view is `db`; the product
is exact here, where the `float64` product of the code is +Inf for a maximum
above about 9e307. -/
def GetNextPageSequence (f : Faults) (ctx : Context) (db : Store) (documentID : String) :
    ℚ × Option String :=
  match scanMaxSequence f ctx db documentID with
  | Except.ok m => (m * 2, none)
  | Except.error e => (2048 * 2, some e)

/-- The function `Persister.GetPages`: the page rows of the organization and the
document, `ORDER BY a.sequence` (rows of equal sequence in table order). -/
def GetPages (f : Faults) (ctx : Context) (s : Store) (documentID : String) :
    List Page × Option String :=
  match f.pagesRead with
  | some e => ([], some e)
  | none =>
    ((s.page.filter (fun a => a.OrgID = ctx.OrgID ∧ a.DocumentID = documentID)).insertionSort
      (fun a b => a.Sequence ≤ b.Sequence), none)

/-- The function `Persister.UpdatePageSequence`: `UPDATE page SET sequence=? WHERE
orgid=? AND refid=?`, then the notification of the search index, whose error is
the returned one. -/
def UpdatePageSequence (f : Faults) (ctx : Context) (s : Store) (documentID pageID : String)
    (sequence : ℚ) : Store × Option String :=
  match f.sequenceUpdate with
  | some e => (s, some e)
  | none =>
    let rows := s.page.map (fun r =>
      if r.OrgID = ctx.OrgID ∧ r.RefID = pageID then { r with Sequence := sequence } else r)
    let s1 : Store := { s with page := rows }
    match f.searchUpdateSequence with
    | some e => (s1, some e)
    | none =>
      ({ s1 with
         search := s1.search ++ [SearchEvent.UpdateSequence ctx.OrgID documentID pageID sequence] },
        none)

/-- The function `Persister.UpdatePageLevel`: `UPDATE page SET level=? WHERE orgid=? AND
refid=?`, then the notification of the search index, whose error is the
returned one. -/
def UpdatePageLevel (f : Faults) (ctx : Context) (s : Store) (documentID pageID : String)
    (level : Int) : Store × Option String :=
  match f.levelUpdate with
  | some e => (s, some e)
  | none =>
    let rows := s.page.map (fun r =>
      if r.OrgID = ctx.OrgID ∧ r.RefID = pageID then { r with Level := level } else r)
    let s1 : Store := { s with page := rows }
    match f.searchUpdateLevel with
    | some e => (s1, some e)
    | none =>
      ({ s1 with
         search := s1.search ++ [SearchEvent.UpdateLevel ctx.OrgID documentID pageID level] },
        none)

/-! ## DeletePage -/

/-- The calls `DeletePage` makes, in the order of the source. -/
inductive DeleteCall where
  | DeleteConstrainedPage
  | DeleteWherePageMeta
  | SearchesDelete
  | DeleteSourcePageLinks
  | MarkOrphanPageLink
  | DeletePageRevisions
deriving DecidableEq

/-- What `DeletePage` leaves and returns: the store, the results `rows` and `err`,
and the calls it made, in order. -/
structure DeleteOutcome where
  store : Store
  rows : Nat
  err : Option String
  calls : List DeleteCall
deriving DecidableEq

/-- Modelled from the spec: `p.Base.DeleteConstrained(tx, "page", orgID, pageID)`, the
delete of the page row constrained to the organization; it returns the number
of rows deleted. -/
def DeleteConstrainedPage (f : Faults) (ctx : Context) (s : Store) (pageID : String) :
    Store × Nat × Option String :=
  match f.pageDelete with
  | some e => (s, 0, some e)
  | none =>
    let gone := s.page.filter (fun r => r.OrgID = ctx.OrgID ∧ r.RefID = pageID)
    let kept := s.page.filter (fun r => !decide (r.OrgID = ctx.OrgID ∧ r.RefID = pageID))
    ({ s with page := kept }, gone.length, none)

/-- The quote character that delimits a string value in the statements built with
`fmt.Sprintf`. -/
def sqlQuote : String := String.singleton (Char.ofNat 39)

/-- A value that stands for itself between two quotes of a statement text: it holds
neither a quote nor a backslash. -/
def plainLiteral (v : String) : Bool :=
  v.data.all (fun c => !decide (c = Char.ofNat 39) && !decide (c = Char.ofNat 92))

/-- The text `fmt.Sprintf("DELETE FROM pagemeta WHERE orgid='%s' AND pageid='%s'", orgID,
pageID)`: the two values are pasted between the quotes as they are. -/
def pageMetaDeleteText (orgID pageID : String) : String :=
  "DELETE FROM pagemeta WHERE orgid=" ++ sqlQuote ++ orgID ++ sqlQuote ++
    " AND pageid=" ++ sqlQuote ++ pageID ++ sqlQuote

/-- The text `fmt.Sprintf("DELETE FROM revision WHERE orgid='%s' AND pageid='%s'", orgID,
pageID)`. -/
def revisionDeleteText (orgID pageID : String) : String :=
  "DELETE FROM revision WHERE orgid=" ++ sqlQuote ++ orgID ++ sqlQuote ++
    " AND pageid=" ++ sqlQuote ++ pageID ++ sqlQuote

/-- The statement `DELETE FROM pagemeta WHERE orgid='%s' AND pageid='%s'` run by
`p.Base.DeleteWhere`.  With two plain values the text is the delete of the rows
with that organization and page; with a quote or a backslash in a value the
text is another statement, whose outcome is the one the database gives for that
text (`f.deleteWhereText`). -/
def deletePageMeta (f : Faults) (ctx : Context) (s : Store) (pageID : String) :
    Store × Option String :=
  match f.pageMetaDelete with
  | some e => (s, some e)
  | none =>
    if plainLiteral ctx.OrgID ∧ plainLiteral pageID then
      let kept := s.pagemeta.filter (fun m => !decide (m.OrgID = ctx.OrgID ∧ m.PageID = pageID))
      ({ s with pagemeta := kept }, none)
    else f.deleteWhereText (pageMetaDeleteText ctx.OrgID pageID) s

/-- Modelled from the spec: `searches.Delete` of the Search Index Sync collaborator,
which receives the delete notification; when it fails it has received nothing. -/
def searchesDelete (f : Faults) (ctx : Context) (s : Store) (documentID pageID : String) :
    Store × Option String :=
  match f.searchDelete with
  | some e => (s, some e)
  | none => ({ s with search := s.search ++ [SearchEvent.Delete ctx.OrgID documentID pageID] }, none)

/-- Modelled from the spec: `Persister.MarkOrphanPageLink(pageID)`, which marks as
orphan the links to this page, within the context's organization, whatever
their type.  Which stored links count as links to the page is the helper's own
condition, the parameter `pointsAt` (a document-level link is stored by
`UpdatePage` with an empty target id). -/
def MarkOrphanPageLink (pointsAt : Link → String → Bool) (f : Faults) (ctx : Context)
    (s : Store) (pageID : String) : Store × Option String :=
  match f.markOrphanPageLink with
  | some e => (s, some e)
  | none =>
    let marked := s.link.map (fun l =>
      if l.OrgID = ctx.OrgID ∧ pointsAt l pageID = true then { l with Orphan := true } else l)
    ({ s with link := marked }, none)

/-- The function `Persister.DeletePageRevisions`: `DELETE FROM revision WHERE orgid='%s'
AND pageid='%s'`, built with `fmt.Sprintf` and run by `p.Base.DeleteWhere` as the
pagemeta delete of `DeletePage` is. -/
def DeletePageRevisions (f : Faults) (ctx : Context) (s : Store) (pageID : String) :
    Store × Option String :=
  match f.deletePageRevisions with
  | some e => (s, some e)
  | none =>
    if plainLiteral ctx.OrgID ∧ plainLiteral pageID then
      let kept := s.revision.filter (fun r => !decide (r.OrgID = ctx.OrgID ∧ r.PageID = pageID))
      ({ s with revision := kept }, none)
    else f.deleteWhereText (revisionDeleteText ctx.OrgID pageID) s

/-- One call of `DeletePage` whose results are dropped (`_, _ =`): the call runs on the
store the calls before it left, whatever they returned, and is recorded in the
trace when it runs. -/
def attempt (c : DeleteCall) (step : Store → Store × Option String)
    (st : Store × List DeleteCall) : Store × List DeleteCall :=
  ((step st.1).1, st.2 ++ [c])

/-- The function `Persister.DeletePage`: the results of the five cleanup calls are
dropped. -/
def DeletePage (pointsAt : Link → String → Bool) (f : Faults) (ctx : Context) (s : Store)
    (documentID pageID : String) : DeleteOutcome :=
  match DeleteConstrainedPage f ctx s pageID with
  | (s0, rows, some e) =>
    { store := s0, rows := rows, err := some e, calls := [DeleteCall.DeleteConstrainedPage] }
  | (s0, rows, none) =>
    let st : Store × List DeleteCall := (s0, [DeleteCall.DeleteConstrainedPage])
    let st := attempt DeleteCall.DeleteWherePageMeta (fun x => deletePageMeta f ctx x pageID) st
    let st := attempt DeleteCall.SearchesDelete
      (fun x => searchesDelete f ctx x documentID pageID) st
    -- delete content links from this page
    let st := attempt DeleteCall.DeleteSourcePageLinks
      (fun x => DeleteSourcePageLinks f ctx x pageID) st
    -- mark as orphan links to this page
    let st := attempt DeleteCall.MarkOrphanPageLink
      (fun x => MarkOrphanPageLink pointsAt f ctx x pageID) st
    -- nuke revisions
    let st := attempt DeleteCall.DeletePageRevisions
      (fun x => DeletePageRevisions f ctx x pageID) st
    { store := st.1, rows := rows, err := none, calls := st.2 }

/-! ## The revision reads -/

/-- Modelled from the spec: an account of a user in an organization (`entity.Account`,
declared outside these source files), with the fields `addUser` and
`AuthenticateKeycloak` use. -/
structure Account where
  RefID : String
  UserID : String
  OrgID : String
  Editor : Bool
  Admin : Bool
  Active : Bool
deriving DecidableEq

/-- Modelled from the spec: a user (`entity.User`, declared outside these source
files), with the fields the revision reads join and the Keycloak handlers use. -/
structure User where
  RefID : String
  Firstname : String
  Lastname : String
  Email : String
  Initials : String
  Active : Bool
  Editor : Bool
  Salt : String
  Password : String
  Accounts : List Account
deriving DecidableEq

/-- A record the revision list reads return: the selected columns of the revision
row (`body`, `rawbody` and `config` are commented out of the SELECT and stay
empty), the author display fields of the joined user row, and the revisions
counter of the joined page row. -/
structure RevisionView where
  Row : Revision
  Email : String
  Firstname : String
  Lastname : String
  Initials : String
  Revisions : Nat
deriving DecidableEq

/-- The columns of a revision row that the list reads select. -/
def selectedColumns (a : Revision) : Revision :=
  { a with Body := "", RawBody := "", Config := "" }

/-- The right side of a LEFT JOIN for one left row: NULL (`none`) once when no row
matches, else every matching row. -/
def leftJoin {β : Type} : List β → List (Option β)
  | [] => [none]
  | b :: bs => (b :: bs).map some

/-- The record built from a revision row, the joined user row and the joined page row,
with the `coalesce` defaults of the SELECT. -/
def revisionView (a : Revision) (b : Option User) (p : Option Page) : RevisionView :=
  { Row := selectedColumns a,
    Email := (b.map User.Email).getD "",
    Firstname := (b.map User.Firstname).getD "",
    Lastname := (b.map User.Lastname).getD "",
    Initials := (b.map User.Initials).getD "",
    Revisions := (p.map Page.Revisions).getD 0 }

/-- What `Db.Select` leaves in a nil slice: the rows, the slice staying nil (`none`)
when there is no row and the library does not allocate (`emptyIsNil`). -/
def dbSelect {β : Type} (emptyIsNil : Bool) (rows : List β) : Option (List β) :=
  if rows.isEmpty && emptyIsNil then none else some rows

/-- The function `Persister.GetDocumentRevisions`: `FROM revision a LEFT JOIN user b ON
a.userid=b.refid LEFT JOIN page p ON a.pageid=p.refid WHERE a.orgid=? AND
a.documentid=? AND a.pagetype='section' ORDER BY a.id DESC`.  The revision table
is in insertion (id) order; the user table, which no page operation writes, is
the parameter `users`.  The result is a Go slice, `none` when nil. -/
def GetDocumentRevisions (emptyIsNil : Bool) (f : Faults) (ctx : Context) (users : List User)
    (s : Store) (documentID : String) : Option (List RevisionView) × Option String :=
  match f.revisionsRead with
  | some e => (none, some e)
  | none =>
    let rows := (s.revision.filter (fun a =>
        a.OrgID = ctx.OrgID ∧ a.DocumentID = documentID ∧ a.PageType = "section")).reverse.flatMap
      (fun a => (leftJoin (users.filter (fun b => a.UserID = b.RefID))).flatMap
        (fun b => (leftJoin (s.page.filter (fun p => a.PageID = p.RefID))).map
          (fun p => revisionView a b p)))
    let revisions := dbSelect emptyIsNil rows
    -- `if len(revisions) == 0 { revisions = []entity.Revision{} }`
    let revisions := if (revisions.getD []).length = 0 then some [] else revisions
    (revisions, none)

/-- The function `Persister.GetPageRevisions`: `FROM revision a LEFT JOIN user b ON
a.userid=b.refid WHERE a.orgid=? AND a.pageid=? AND a.pagetype='section' ORDER BY
a.id DESC`. -/
def GetPageRevisions (emptyIsNil : Bool) (f : Faults) (ctx : Context) (users : List User)
    (s : Store) (pageID : String) : Option (List RevisionView) × Option String :=
  match f.revisionsRead with
  | some e => (none, some e)
  | none =>
    let rows := (s.revision.filter (fun a =>
        a.OrgID = ctx.OrgID ∧ a.PageID = pageID ∧ a.PageType = "section")).reverse.flatMap
      (fun a => (leftJoin (users.filter (fun b => a.UserID = b.RefID))).map
        (fun b => revisionView a b none))
    (dbSelect emptyIsNil rows, none)

/-! ## The Keycloak handlers (`core/api/endpoint/keycloak.go`) -/

/-- The type `keycloakAuthRequest`: data received via the Keycloak client library. -/
structure keycloakAuthRequest where
  Domain : String
  Token : String
  RemoteID : String
  Email : String
  Username : String
  Firstname : String
  Lastname : String
  Enabled : Bool
deriving DecidableEq

/-- The type `keycloakConfig`: the Keycloak server configuration. -/
structure keycloakConfig where
  URL : String
  Realm : String
  ClientID : String
  PublicKey : String
  AdminUser : String
  AdminPassword : String
  Group : String
  DisableLogout : Bool
  DefaultPermissionAddSpace : Bool
deriving DecidableEq

/-- The type `keycloakUser`: a user record returned by Keycloak. -/
structure keycloakUser where
  ID : String
  Username : String
  Email : String
  Firstname : String
  Lastname : String
  Enabled : Bool
deriving DecidableEq

/-- Modelled from the spec: the fields of `entity.Organization` the handlers read. -/
structure Organization where
  RefID : String
  AuthProvider : String
  AuthConfig : String
deriving DecidableEq

/-- The function `StripAuthSecrets`.  The library functions `json.Unmarshal` (into a
`keycloakConfig`) and `json.Marshal` are parameters. -/
def StripAuthSecrets (unmarshal : String → Except String keycloakConfig)
    (marshal : keycloakConfig → Except String String) (provider config : String) : String :=
  if provider = "documize" then config
  else if provider = "keycloak" then
    match unmarshal config with
    | Except.error _ => config
    | Except.ok c =>
      let c : keycloakConfig := { c with AdminPassword := "", AdminUser := "", PublicKey := "" }
      match marshal c with
      | Except.error _ => config
      | Except.ok j => j
  else config

/-- A value of the claims map decoded from the Keycloak token: a string, or a JSON
value of another type. -/
inductive ClaimValue where
  | Str (v : String)
  | Other
deriving DecidableEq

/-- The type assertion `claims[key].(string)`: it panics (`none`) when the key is
missing or its value is not a string. -/
def assertString (claims : String → Option ClaimValue) (key : String) : Option String :=
  match claims key with
  | some (ClaimValue.Str v) => some v
  | some ClaimValue.Other => none
  | none => none

/-- The result of `p.GetUserByDomain`: the user, `sql.ErrNoRows`, or another error. -/
inductive UserLookup where
  | Found (user : User)
  | ErrNoRows
  | Failed (err : String)
deriving DecidableEq

/-- What the handler `AuthenticateKeycloak` wrote to the client; `Panicked` when the
goroutine panicked and the handler wrote nothing. -/
inductive Response where
  | BadRequest (message : String)
  | PayloadError (err : String)
  | Unauthorized
  | RequestError (message : String)
  | ServerError (err : String)
  | JSONMarshalError (err : String)
  | SuccessBytes (json : String)
  | Panicked
deriving DecidableEq

/-- The collaborators of `AuthenticateKeycloak`: the request body, the library
functions, the persister reads and the helpers declared in other files.
`addUser` gives the user as the caller's variable holds it afterwards and the
returned error. -/
structure AuthEnv where
  readBody : Except String String
  unmarshalRequest : String → Except String keycloakAuthRequest
  ToLower : String → String
  TrimSpace : String → String
  CheckDomain : String → String
  GetOrganizationByDomain : String → Except String Organization
  unmarshalConfig : String → Except String keycloakConfig
  decodeBase64 : String → Except String String
  decodeKeycloakJWT : String → String → Except String (String → Option ClaimValue)
  GetUserByDomain : String → String → UserLookup
  MakeInitials : String → String → String
  GenerateSalt : String
  GenerateRandomPassword : String
  GeneratePassword : String → String → String
  addUser : User → Bool → User × Option String
  attachUserAccounts : String → User → User
  generateJWT : String → String → String → String
  marshalAuthModel : String → User → Except String String

/-- What a run of `AuthenticateKeycloak` did: the response, the calls of `addUser` (the
only call that creates a user or an account), and the Documize JWT it
generated, if any. -/
structure AuthOutcome where
  response : Response
  addUserCalls : List (User × Bool)
  generatedJWT : Option String

/-- The loop of `AuthenticateKeycloak` over `user.Accounts`: `true` when the first account
of the organization is not active. -/
def accountDisabled (orgID : String) : List Account → Bool
  | [] => false
  | ac :: rest => if ac.OrgID = orgID then !ac.Active else accountDisabled orgID rest

/-- The end of `AuthenticateKeycloak`, from the comparison of the email with the user
record. -/
def finishLogin (env : AuthEnv) (a : keycloakAuthRequest) (org : Organization) (user : User)
    (calls : List (User × Bool)) : AuthOutcome :=
  -- Password correct and active user
  if a.Email ≠ env.TrimSpace (env.ToLower user.Email) then ⟨Response.Unauthorized, calls, none⟩
  else
    -- Attach user accounts and work out permissions.
    let user := env.attachUserAccounts org.RefID user
    if user.Accounts.length = 0 then ⟨Response.Unauthorized, calls, none⟩
    else if accountDisabled org.RefID user.Accounts then ⟨Response.Unauthorized, calls, none⟩
    else
      -- Generate JWT token
      let token := env.generateJWT user.RefID org.RefID a.Domain
      match env.marshalAuthModel token user with
      | Except.error e => ⟨Response.JSONMarshalError e, calls, some token⟩
      | Except.ok json => ⟨Response.SuccessBytes json, calls, some token⟩

/-- The part of `AuthenticateKeycloak` after the token was decoded and verified. -/
def afterVerifiedToken (env : AuthEnv) (a : keycloakAuthRequest) (org : Organization)
    (ac : keycloakConfig) (claims : String → Option ClaimValue) : AuthOutcome :=
  -- Compare the contents from JWT with what we have.
  match assertString claims "email" with
  | none => ⟨Response.Panicked, [], none⟩
  | some email =>
    if a.Email ≠ email then ⟨Response.Unauthorized, [], none⟩
    else
      match assertString claims "sub" with
      | none => ⟨Response.Panicked, [], none⟩
      | some sub =>
        if sub ≠ a.RemoteID then ⟨Response.Unauthorized, [], none⟩
        else
          match env.GetUserByDomain a.Domain a.Email with
          | UserLookup.Failed e => ⟨Response.ServerError e, [], none⟩
          | UserLookup.Found user => finishLogin env a org user []
          | UserLookup.ErrNoRows =>
            -- Create user account if not found
            let salt := env.GenerateSalt
            let user : User :=
              { RefID := "", Firstname := a.Firstname, Lastname := a.Lastname, Email := a.Email,
                Initials := env.MakeInitials a.Firstname a.Lastname, Active := false,
                Editor := false, Salt := salt,
                Password := env.GeneratePassword env.GenerateRandomPassword salt, Accounts := [] }
            match env.addUser user ac.DefaultPermissionAddSpace with
            | (_, some e) =>
              ⟨Response.ServerError e, [(user, ac.DefaultPermissionAddSpace)], none⟩
            | (user1, none) =>
              finishLogin env a org user1 [(user, ac.DefaultPermissionAddSpace)]

/-- The handler `AuthenticateKeycloak`. -/
def AuthenticateKeycloak (env : AuthEnv) : AuthOutcome :=
  match env.readBody with
  | Except.error _ => ⟨Response.BadRequest "Bad payload", [], none⟩
  | Except.ok body =>
    match env.unmarshalRequest body with
    | Except.error e => ⟨Response.PayloadError e, [], none⟩
    | Except.ok a =>
      let a : keycloakAuthRequest :=
        { a with Domain := env.CheckDomain (env.TrimSpace (env.ToLower a.Domain)),
                 Email := env.TrimSpace (env.ToLower a.Email) }
      -- Check for required fields.
      if a.Email.length = 0 then ⟨Response.Unauthorized, [], none⟩
      else
        match env.GetOrganizationByDomain a.Domain with
        | Except.error _ => ⟨Response.Unauthorized, [], none⟩
        | Except.ok org =>
          -- Fetch Keycloak auth provider config
          match env.unmarshalConfig org.AuthConfig with
          | Except.error _ =>
            ⟨Response.BadRequest "Unable to unmarshall Keycloak Public Key", [], none⟩
          | Except.ok ac =>
            -- Decode and prepare RSA Public Key used by keycloak to sign JWT.
            match env.decodeBase64 ac.PublicKey with
            | Except.error _ =>
              ⟨Response.BadRequest "Unable to base64 decode Keycloak Public Key", [], none⟩
            | Except.ok pkb =>
              let pk := "-----BEGIN PUBLIC KEY-----\n" ++ pkb ++ "\n-----END PUBLIC KEY-----"
              -- Decode and verify Keycloak JWT
              match env.decodeKeycloakJWT a.Token pk with
              | Except.error e => ⟨Response.RequestError e, [], none⟩
              | Except.ok claims => afterVerifiedToken env a org ac claims

/-! ### SyncKeycloak -/

/-- The function `KeycloakUsers`: the two HTTP exchanges with the Keycloak server are the
parameter `fetch`; the loop turns each record into a user, `Active` taken from
`enabled`. -/
def KeycloakUsers (fetch : keycloakConfig → Except String (List keycloakUser))
    (MakeInitials : String → String → String) (c : keycloakConfig) :
    List User × Option String :=
  match fetch c with
  | Except.error e => ([], some e)
  | Except.ok kcUsers =>
    (kcUsers.map (fun kc =>
      { RefID := "", Firstname := kc.Firstname, Lastname := kc.Lastname, Email := kc.Email,
        Initials := MakeInitials kc.Firstname kc.Lastname, Active := kc.Enabled,
        Editor := false, Salt := "", Password := "", Accounts := [] }), none)

/-- The message of the JSON result of `SyncKeycloak`. -/
inductive SyncMessage where
  | NoOrganization
  | NotKeycloak
  | BadConfiguration
  | KeycloakUsersFailed (err : String)
  | DocumizeUsersFailed
  | Synced (users additions : Nat)
deriving DecidableEq

/-- What the handler `SyncKeycloak` wrote to the client. -/
inductive SyncResponse where
  | Forbidden
  | Result (message : SyncMessage) (isError : Bool)
deriving DecidableEq

/-- The collaborators of `SyncKeycloak`: the context, the persister reads, the library
and the Keycloak server. -/
structure SyncEnv where
  Administrator : Bool
  OrgID : String
  GetOrganization : String → Except String Organization
  unmarshalConfig : String → Except String keycloakConfig
  fetch : keycloakConfig → Except String (List keycloakUser)
  MakeInitials : String → String → String
  GetUsersForOrganization : Except String (List User)
  addUser : User → Bool → Option String

/-- What a run of `SyncKeycloak` did: the response and the calls of `addUser`, the only
calls of the handler that write to the store. -/
structure SyncOutcome where
  response : SyncResponse
  addUserCalls : List (User × Bool)
deriving DecidableEq

/-- The users `SyncKeycloak` collects in `insert`: the Keycloak users, sorted by email,
whose email is the email of no Documize user. -/
def usersToInsert (kcUsers dmzUsers : List User) : List User :=
  let kcUsers := kcUsers.insertionSort (fun a b => a.Email ≤ b.Email)
  let dmzUsers := dmzUsers.insertionSort (fun a b => a.Email ≤ b.Email)
  kcUsers.filter (fun k => !(dmzUsers.any (fun d => k.Email = d.Email)))

/-- The handler `SyncKeycloak`. -/
def SyncKeycloak (env : SyncEnv) : SyncOutcome :=
  if !env.Administrator then ⟨SyncResponse.Forbidden, []⟩
  else
    -- Org contains raw auth provider config
    match env.GetOrganization env.OrgID with
    | Except.error _ => ⟨SyncResponse.Result SyncMessage.NoOrganization true, []⟩
    | Except.ok org =>
      -- Exit if not using Keycloak
      if org.AuthProvider ≠ "keycloak" then ⟨SyncResponse.Result SyncMessage.NotKeycloak true, []⟩
      else
        -- Make Keycloak auth provider config
        match env.unmarshalConfig org.AuthConfig with
        | Except.error _ => ⟨SyncResponse.Result SyncMessage.BadConfiguration true, []⟩
        | Except.ok c =>
          -- User list from Keycloak
          match KeycloakUsers env.fetch env.MakeInitials c with
          | (_, some e) => ⟨SyncResponse.Result (SyncMessage.KeycloakUsersFailed e) true, []⟩
          | (kcUsers, none) =>
            -- User list from Documize
            match env.GetUsersForOrganization with
            | Except.error _ => ⟨SyncResponse.Result SyncMessage.DocumizeUsersFailed true, []⟩
            | Except.ok dmzUsers =>
              let insert := usersToInsert kcUsers dmzUsers
              -- Insert new users into Documize
              ⟨SyncResponse.Result (SyncMessage.Synced kcUsers.length insert.length) false,
                insert.map (fun u => (u, c.DefaultPermissionAddSpace))⟩

/-! ## GetPagesWhereIn -/

/-- The library function `strings.Split(s, sep)` for a separator of one character, on
the characters of `s`: the pieces between the separators, one more than there
are separators. -/
def splitOnChar (sep : Char) : List Char → List (List Char)
  | [] => [[]]
  | c :: cs =>
    if c = sep then [] :: splitOnChar sep cs
    else
      match splitOnChar sep cs with
      | [] => [[c]]
      | piece :: pieces => (c :: piece) :: pieces

/-- The call `strings.Split(inPages, ",")`. -/
def SplitComma (inPages : String) : List String :=
  (splitOnChar ',' inPages.data).map String.mk

/-- The string `s` written `n` times. -/
def repeatString (s : String) : Nat → String
  | 0 => ""
  | n + 1 => s ++ repeatString s n

/-- The library function `strings.Repeat(s, count)`: it panics (`none`) when `count` is
negative. -/
def Repeat (s : String) (count : Int) : Option String :=
  if count < 0 then none else some (repeatString s count.toNat)

/-- The text of the SELECT of `GetPagesWhereIn` up to the first placeholder of the IN
list. -/
def whereInSelect : String :=
  "SELECT a.id, a.refid, a.orgid, a.documentid, a.userid, a.contenttype, a.pagetype, " ++
  "a.level, a.sequence, a.title, a.body, a.blockid, a.revisions, a.created, a.revised " ++
  "FROM page a WHERE a.orgid=? AND a.documentid=? AND a.refid IN (?"

/-- The statement of `GetPagesWhereIn`: its text and the arguments of the query. -/
structure WhereInStatement where
  sql : String
  args : List String
deriving DecidableEq

/-- The first lines of `Persister.GetPagesWhereIn`: the SQL text and the argument list;
`none` when `strings.Repeat` panics. -/
def whereInStatement (ctx : Context) (documentID inPages : String) : Option WhereInStatement :=
  let tempValues := SplitComma inPages
  match Repeat ",?" ((tempValues.length : Int) - 1) with
  | none => none
  | some placeholders =>
    some { sql := whereInSelect ++ placeholders ++ ") ORDER BY sequence",
           args := [ctx.OrgID, documentID] ++ tempValues }

/-- The function `Persister.GetPagesWhereIn`: the page rows of the organization and the
document whose refid is one of the items, by sequence; `none` when building the
statement panics.  The prepare, the query and the scan of a row fail together
(`pagesRead`). -/
def GetPagesWhereIn (f : Faults) (ctx : Context) (s : Store) (documentID inPages : String) :
    Option (List Page × Option String) :=
  match whereInStatement ctx documentID inPages with
  | none => none
  | some q =>
    match f.pagesRead with
    | some e => some ([], some e)
    | none =>
      some ((s.page.filter (fun a => a.OrgID = ctx.OrgID ∧ a.DocumentID = documentID ∧
          a.RefID ∈ q.args.drop 2)).insertionSort (fun a b => a.Sequence ≤ b.Sequence), none)

/-! ## Concrete stores and arguments -/

/-- The context of the examples: organization `o1`, user `u1`. -/
def ctx1 : Context := ⟨"o1", "u1"⟩

/-- A stored page `p1` of document `d1` in organization `o1`, written by `u0`,
with three recorded revisions. -/
def storedPage : Page :=
  { RefID := "p1", OrgID := "o1", DocumentID := "d1", UserID := "u0", ContentType := "wysiwyg",
    PageType := "section", BlockID := "", Level := 1, Sequence := 4096, Title := "Old title",
    Body := "old body", Revisions := 3, Created := 1, Revised := 1 }

/-- The page argument of an update of `p1`: a new title and body, and a revisions
field of 0. -/
def editedPage : Page :=
  { storedPage with Title := "New title", Body := "new body", Revisions := 0 }

/-- The meta row of page `p1`. -/
def storedMeta : PageMeta :=
  { PageID := "p1", OrgID := "o1", UserID := "u0", DocumentID := "d1", RawBody := "raw",
    Config := "cfg", ExternalSource := false, Created := 1, Revised := 1 }

/-- A store holding page `p1` and its meta row. -/
def storeOnePage : Store :=
  { page := [storedPage], pagemeta := [storedMeta], revision := [], link := [], search := [] }

/-- A store holding page `p1` without a meta row. -/
def storeNoMeta : Store :=
  { page := [storedPage], pagemeta := [], revision := [], link := [], search := [] }

/-- A Link Extractor that finds no link. -/
def extractNone : String → List Link := fun _ => []

/-- A stored link of page `p1` with the given target, type and orphan flag. -/
def linkOfP1 (target linkType : String) (orphan : Bool) : Link :=
  { OrgID := "o1", UserID := "u0", SourceDocumentID := "d1", SourcePageID := "p1",
    TargetID := target, LinkType := linkType, Orphan := orphan }

/-- A link as the extractor yields it: target and type read from the body, the
other fields not yet stamped. -/
def rawLink (target linkType : String) : Link :=
  { OrgID := "", UserID := "", SourceDocumentID := "", SourcePageID := "",
    TargetID := target, LinkType := linkType, Orphan := false }

/-- A Link Extractor that finds two document links, to documents `d8` and `d9`. -/
def extractTwoDocs : String → List Link :=
  fun _ => [rawLink "d8" "document", rawLink "d9" "document"]

/-- Page `p1` with two stored document links (their target ids cleared): the first
not orphan, the second orphan. -/
def storeTwoDocLinks : Store :=
  { storeOnePage with link := [linkOfP1 "" "document" false, linkOfP1 "" "document" true] }

/-- The faults in which only the delete of the previous source links fails. -/
def failDelete : Faults := { noFaults with deleteSourcePageLinks := some "delete failed" }

/-- Page `p1` with one stored link, to section `t0`. -/
def storeOldLink : Store := { storeOnePage with link := [linkOfP1 "t0" "section" false] }

/-- The faults in which only the page UPDATE fails. -/
def failPageUpdate : Faults := { noFaults with pageUpdate := some "update failed" }

/-- The faults in which only the Search Index Sync update fails. -/
def failSearch : Faults := { noFaults with searchUpdate := some "index unavailable" }

/-- The faults in which only the revisions counter UPDATE fails. -/
def failCounter : Faults := { noFaults with counterUpdate := some "counter failed" }

/-- The faults in which only the insert of a link to `t2` fails. -/
def failLinkT2 : Faults :=
  { noFaults with
    addContentLink := fun l => if l.TargetID = "t2" then some "insert failed" else none }

/-- A Link Extractor that finds two section links, to `t1` and `t2`. -/
def extractTwoSections : String → List Link :=
  fun _ => [rawLink "t1" "section", rawLink "t2" "section"]

/-- The faults in which only the read of the maximum sequence fails. -/
def failMaxRead : Faults := { noFaults with maxSequenceRead := some "connection lost" }

/-- A new page `p2` for document `d1`, with no explicit sequence, and its meta. -/
def newPageModel : PageModel :=
  { Page := { RefID := "p2", OrgID := "", DocumentID := "d1", UserID := "", ContentType := "wysiwyg",
              PageType := "section", BlockID := "", Level := 1, Sequence := 0, Title := "Second",
              Body := "", Revisions := 0, Created := 0, Revised := 0 },
    Meta := { PageID := "p2", OrgID := "", UserID := "", DocumentID := "", RawBody := "",
              Config := "", ExternalSource := false, Created := 0, Revised := 0 } }

/-- The store with no row at all. -/
def emptyStore : Store := { page := [], pagemeta := [], revision := [], link := [], search := [] }

/-- A new page `p3` for document `d1`, with no explicit sequence, and its meta. -/
def thirdPageModel : PageModel :=
  { newPageModel with
    Page := { newPageModel.Page with RefID := "p3", Title := "Third" },
    Meta := { newPageModel.Meta with PageID := "p3" } }

/-- The store reached from the empty one by adding page `p2` with no explicit sequence
and then moving it to sequence 0 with `UpdatePageSequence`. -/
def storeMovedToZero : Store :=
  (UpdatePageSequence noFaults ctx1
    (AddPage noFaults ctx1 7 emptyStore emptyStore newPageModel).1
    "d1" "p2" 0).1

/-- A second stored page, `p2`, of document `d1` in organization `o1`. -/
def secondPage : Page :=
  { storedPage with RefID := "p2", Sequence := 8192, Title := "Second", Body := "see p1" }

/-- The meta row of page `p2`. -/
def secondMeta : PageMeta := { storedMeta with PageID := "p2" }

/-- A store holding pages `p1` and `p2` with their meta rows, and one revision of each. -/
def storeTwoPages : Store :=
  { page := [storedPage, secondPage], pagemeta := [storedMeta, secondMeta],
    revision :=
      [{ RefID := "r0", OrgID := "o1", DocumentID := "d1", OwnerID := "u0", PageID := "p1",
         UserID := "u0", ContentType := "wysiwyg", PageType := "section", Title := "Older title",
         Body := "older body", RawBody := "raw", Config := "cfg", Created := 1, Revised := 1 },
       { RefID := "r9", OrgID := "o1", DocumentID := "d1", OwnerID := "u0", PageID := "p2",
         UserID := "u0", ContentType := "wysiwyg", PageType := "section", Title := "Second",
         Body := "draft", RawBody := "raw", Config := "cfg", Created := 2, Revised := 2 }],
    link := [], search := [] }

/-- The helper's condition read as "the stored target id of the link is the page". -/
def targetIs : Link → String → Bool := fun l pageID => decide (l.TargetID = pageID)

/-- The six calls of `DeletePage`, in the order of the source. -/
def allDeleteCalls : List DeleteCall :=
  [DeleteCall.DeleteConstrainedPage, DeleteCall.DeleteWherePageMeta, DeleteCall.SearchesDelete,
    DeleteCall.DeleteSourcePageLinks, DeleteCall.MarkOrphanPageLink,
    DeleteCall.DeletePageRevisions]

/-- Pages `p1` and `p2` with a link of `p1` to section `t0` and a link of `p2` to
section `p1`. -/
def storeLinked : Store :=
  { storeTwoPages with
    link := [linkOfP1 "t0" "section" false,
             { linkOfP1 "p1" "section" false with SourcePageID := "p2" }] }

/-- The faults in which every cleanup step of `DeletePage` fails and the delete of the
page row succeeds. -/
def failCleanup : Faults :=
  { noFaults with
    pageMetaDelete := some "meta", searchDelete := some "index",
    deleteSourcePageLinks := some "links", markOrphanPageLink := some "orphan",
    deletePageRevisions := some "revisions" }

/-- The faults in which the pagemeta delete and the search-index delete of `DeletePage`
fail and every other step succeeds. -/
def failEarlyCleanup : Faults :=
  { noFaults with pageMetaDelete := some "meta", searchDelete := some "index" }

/-- The faults in which only the UPDATE of the level fails. -/
def failLevelUpdate : Faults := { noFaults with levelUpdate := some "update failed" }

/-- The faults in which only the sequence UPDATE fails. -/
def failSequenceUpdate : Faults := { noFaults with sequenceUpdate := some "update failed" }

/-- A page `p1` owned by another organization, `o2`. -/
def foreignPage : Page :=
  { storedPage with OrgID := "o2", Title := "Title of o2", Body := "body of o2" }

/-- The meta row of the page of organization `o2`. -/
def foreignMeta : PageMeta := { storedMeta with OrgID := "o2", RawBody := "raw of o2" }

/-- A store whose only rows belong to organization `o2`. -/
def storeForeign : Store :=
  { page := [foreignPage], pagemeta := [foreignMeta], revision := [], link := [], search := [] }

/-- The user table of the examples: the author `u0`. -/
def usersOne : List User :=
  [{ RefID := "u0", Firstname := "Ada", Lastname := "Lovelace", Email := "ada@example.org",
     Initials := "AL", Active := true, Editor := true, Salt := "", Password := "",
     Accounts := [] }]

/-- A Keycloak configuration with its three secrets set. -/
def fullConfig : keycloakConfig :=
  { URL := "https://kc.example.org", Realm := "main", ClientID := "dmz", PublicKey := "UEs=",
    AdminUser := "root", AdminPassword := "s3cret", Group := "",
    DisableLogout := false, DefaultPermissionAddSpace := true }

/-- The configuration `fullConfig` with the three secrets emptied. -/
def strippedConfig : keycloakConfig :=
  { fullConfig with AdminPassword := "", AdminUser := "", PublicKey := "" }

/-- The JSON text of `fullConfig`. -/
def fullConfigText : String :=
  "\x7b\"url\":\"https://kc.example.org\",\"realm\":\"main\",\"clientId\":\"dmz\"," ++
  "\"publicKey\":\"UEs=\",\"adminUser\":\"root\",\"adminPassword\":\"s3cret\",\"group\":\"\"," ++
  "\"disableLogout\":false,\"defaultPermissionAddSpace\":true\x7d"

/-- The JSON text of `strippedConfig`, as `json.Marshal` writes it. -/
def strippedConfigText : String :=
  "\x7b\"url\":\"https://kc.example.org\",\"realm\":\"main\",\"clientId\":\"dmz\"," ++
  "\"publicKey\":\"\",\"adminUser\":\"\",\"adminPassword\":\"\",\"group\":\"\"," ++
  "\"disableLogout\":false,\"defaultPermissionAddSpace\":true\x7d"

/-- A JSON text that holds an admin password and whose `disableLogout` is a string, not
a boolean. -/
def mistypedConfigText : String :=
  "\x7b\"adminPassword\":\"" ++ "s3cret" ++ "\",\"disableLogout\":\"yes\"\x7d"

/-- The values of the library function `json.Unmarshal` into a `keycloakConfig` at the
three texts of the examples (a table, not a parser): the two well-typed texts
decode, the text with a string for the boolean `disableLogout` is a type
error. -/
def jsonUnmarshalTable (text : String) : Except String keycloakConfig :=
  if text = fullConfigText then Except.ok fullConfig
  else if text = strippedConfigText then Except.ok strippedConfig
  else if text = mistypedConfigText then
    Except.error
      "json: cannot unmarshal string into Go struct field keycloakConfig.disableLogout of type bool"
  else Except.error "not in the table"

/-- The values of the library function `json.Marshal` at the two configurations used
below (a table). -/
def jsonMarshalTable (c : keycloakConfig) : Except String String :=
  if c = fullConfig then Except.ok fullConfigText
  else if c = strippedConfig then Except.ok strippedConfigText
  else Except.error "not in the table"

/-- The login request of the examples, for the Keycloak user `kc-1`. -/
def loginRequest : keycloakAuthRequest :=
  { Domain := "acme", Token := "token", RemoteID := "kc-1", Email := "ada@example.org",
    Username := "ada", Firstname := "Ada", Lastname := "Lovelace", Enabled := true }

/-- The organization of the examples, configured for Keycloak. -/
def acme : Organization :=
  { RefID := "o1", AuthProvider := "keycloak", AuthConfig := fullConfigText }

/-- The Documize user of the examples, active, with an active account in `o1`. -/
def ada : User :=
  { RefID := "u0", Firstname := "Ada", Lastname := "Lovelace", Email := "ada@example.org",
    Initials := "AL", Active := true, Editor := true, Salt := "", Password := "",
    Accounts := [{ RefID := "a0", UserID := "u0", OrgID := "o1", Editor := true, Admin := false,
                   Active := true }] }

/-- The claims of a verified token that has the subject `kc-1` and no `email` claim. -/
def claimsWithoutEmail : String → Option ClaimValue :=
  fun key => if key = "sub" then some (ClaimValue.Str "kc-1") else none

/-- The claims of a verified token whose `email` is the request's and whose `sub` is a
number. -/
def claimsNumericSub : String → Option ClaimValue :=
  fun key => if key = "email" then some (ClaimValue.Str "ada@example.org")
    else if key = "sub" then some ClaimValue.Other else none

/-- The claims of a verified token issued for another email. -/
def claimsOtherEmail : String → Option ClaimValue :=
  fun key => if key = "email" then some (ClaimValue.Str "eve@example.org")
    else if key = "sub" then some (ClaimValue.Str "kc-1") else none

/-- A run of the login handler in which every collaborator succeeds and the verified
token carries the given claims. -/
def loginEnv (claims : String → Option ClaimValue) : AuthEnv :=
  { readBody := Except.ok "body",
    unmarshalRequest := fun _ => Except.ok loginRequest,
    ToLower := fun x => x,
    TrimSpace := fun x => x,
    CheckDomain := fun x => x,
    GetOrganizationByDomain := fun _ => Except.ok acme,
    unmarshalConfig := fun _ => Except.ok fullConfig,
    decodeBase64 := fun _ => Except.ok "PK",
    decodeKeycloakJWT := fun _ _ => Except.ok claims,
    GetUserByDomain := fun _ _ => UserLookup.Found ada,
    MakeInitials := fun _ _ => "AL",
    GenerateSalt := "salt",
    GenerateRandomPassword := "random",
    GeneratePassword := fun password salt => password ++ salt,
    addUser := fun u _ => (u, none),
    attachUserAccounts := fun _ u => u,
    generateJWT := fun _ _ _ => "documize-jwt",
    marshalAuthModel := fun token _ => Except.ok token }

/-- The login request as the handler normalizes it in `loginEnv`. -/
def normalizedRequest : keycloakAuthRequest :=
  { loginRequest with Domain := "acme", Email := "ada@example.org" }

/-- The Keycloak records of the examples: `ada`, disabled in Keycloak, and a new user. -/
def keycloakRecords : List keycloakUser :=
  [{ ID := "kc-1", Username := "ada", Email := "ada@example.org", Firstname := "Ada",
     Lastname := "Lovelace", Enabled := false },
   { ID := "kc-2", Username := "bob", Email := "bob@example.org", Firstname := "Bob",
     Lastname := "Builder", Enabled := true }]

/-- A run of the sync handler by an administrator of `acme`: Keycloak returns
`keycloakRecords`, Documize holds the active user `ada`. -/
def syncEnv : SyncEnv :=
  { Administrator := true,
    OrgID := "o1",
    GetOrganization := fun _ => Except.ok acme,
    unmarshalConfig := fun _ => Except.ok fullConfig,
    fetch := fun _ => Except.ok keycloakRecords,
    MakeInitials := fun _ _ => "",
    GetUsersForOrganization := Except.ok [ada],
    addUser := fun _ _ => none }

/-- The user `SyncKeycloak` builds from the Keycloak record of `bob`. -/
def bob : User :=
  { RefID := "", Firstname := "Bob", Lastname := "Builder", Email := "bob@example.org",
    Initials := "", Active := true, Editor := false, Salt := "", Password := "", Accounts := [] }

/-! ## Auxiliary facts about the loop and the statements -/

theorem saveLinks_fst_frame (f : Faults) (ctx : Context) (page : Page) (prev : List Link)
    (links : List Link) (s : Store) :
    (saveLinks f ctx page prev links s).1.page = s.page ∧
    (saveLinks f ctx page prev links s).1.pagemeta = s.pagemeta ∧
    (saveLinks f ctx page prev links s).1.revision = s.revision ∧
    (saveLinks f ctx page prev links s).1.search = s.search := by
  induction links generalizing s with
  | nil => simp [saveLinks]
  | cons l rest ih =>
    simp only [saveLinks, AddContentLink]
    cases h : f.addContentLink (prepareLink ctx page prev l) with
    | some e => simp
    | none => simpa using ih _

theorem saveLinks_ok (f : Faults) (ctx : Context) (page : Page) (prev : List Link)
    (links : List Link) (s : Store)
    (h : (saveLinks f ctx page prev links s).2 = none) :
    (saveLinks f ctx page prev links s).1.link
      = s.link ++ links.map (prepareLink ctx page prev) := by
  induction links generalizing s with
  | nil => simp [saveLinks]
  | cons l rest ih =>
    simp only [saveLinks, AddContentLink] at h ⊢
    cases hl : f.addContentLink (prepareLink ctx page prev l) with
    | some e => simp [hl] at h
    | none =>
      simp only [hl] at h ⊢
      rw [ih _ h]
      simp

theorem saveLinks_noFail (f : Faults) (ctx : Context) (page : Page) (prev : List Link)
    (links : List Link) (s : Store) (hf : ∀ l, f.addContentLink l = none) :
    (saveLinks f ctx page prev links s).2 = none := by
  induction links generalizing s with
  | nil => simp [saveLinks]
  | cons l rest ih =>
    simp only [saveLinks, AddContentLink, hf]
    exact ih _

theorem DeleteSourcePageLinks_frame (f : Faults) (ctx : Context) (s : Store) (pageID : String) :
    (DeleteSourcePageLinks f ctx s pageID).1.page = s.page ∧
    (DeleteSourcePageLinks f ctx s pageID).1.pagemeta = s.pagemeta ∧
    (DeleteSourcePageLinks f ctx s pageID).1.revision = s.revision ∧
    (DeleteSourcePageLinks f ctx s pageID).1.search = s.search := by
  unfold DeleteSourcePageLinks
  cases f.deleteSourcePageLinks <;> simp

theorem GetPageLinks_fst (f : Faults) (ctx : Context) (s : Store) (d p : String) :
    (GetPageLinks f ctx s d p).1 = linksRead f ctx s.link d p := by
  unfold GetPageLinks linksRead
  cases f.getPageLinks <;> rfl

theorem DeleteSourcePageLinks_link (f : Faults) (ctx : Context) (s : Store) (p : String) :
    (DeleteSourcePageLinks f ctx s p).1.link = linksKept f ctx s.link p := by
  unfold DeleteSourcePageLinks linksKept
  cases f.deleteSourcePageLinks <;> rfl

/-- What a link recomputation that returns no error has done to each table. -/
theorem recomputeLinks_ok (G : String → List Link) (f : Faults) (ctx : Context)
    (s : Store) (page : Page) (h : (recomputeLinks G f ctx s page).2 = none) :
    (recomputeLinks G f ctx s page).1.link
        = (DeleteSourcePageLinks f ctx s page.RefID).1.link ++
            (G page.Body).map
              (prepareLink ctx page (GetPageLinks f ctx s page.DocumentID page.RefID).1) ∧
    (recomputeLinks G f ctx s page).1.page = s.page ∧
    (recomputeLinks G f ctx s page).1.pagemeta = s.pagemeta ∧
    (recomputeLinks G f ctx s page).1.revision = s.revision ∧
    (recomputeLinks G f ctx s page).1.search = s.search := by
  unfold recomputeLinks at h ⊢
  obtain ⟨a, b, c, d⟩ := saveLinks_fst_frame f ctx page
    (GetPageLinks f ctx s page.DocumentID page.RefID).1 (G page.Body)
    (DeleteSourcePageLinks f ctx s page.RefID).1
  obtain ⟨a1, b1, c1, d1⟩ := DeleteSourcePageLinks_frame f ctx s page.RefID
  exact ⟨saveLinks_ok _ _ _ _ _ _ h, a.trans a1, b.trans b1, c.trans c1, d.trans d1⟩

/-- What a call of `UpdatePage` that returns no error has done to each table. -/
theorem UpdatePage_ok (G : String → List Link) (f : Faults) (ctx : Context) (now : Nat)
    (s : Store) (page : Page) (refID userID : String) (skip : Bool)
    (h : (UpdatePage G f ctx now s page refID userID skip).2 = none) :
    (UpdatePage G f ctx now s page refID userID skip).1.revision
        = (if skip then s.revision
           else s.revision ++ revisionRows s page.RefID refID userID now) ∧
    (UpdatePage G f ctx now s page refID userID skip).1.page
        = (if skip then s.page.map (updatedRow { page with Revised := now })
           else (s.page.map (updatedRow { page with Revised := now })).map
                  (incrementedRow ctx page.RefID)) ∧
    (UpdatePage G f ctx now s page refID userID skip).1.link
        = (DeleteSourcePageLinks f ctx s page.RefID).1.link ++
            (G page.Body).map
              (prepareLink ctx page (GetPageLinks f ctx s page.DocumentID page.RefID).1) ∧
    (UpdatePage G f ctx now s page refID userID skip).1.pagemeta = s.pagemeta ∧
    (UpdatePage G f ctx now s page refID userID skip).1.search
        = s.search ++ [SearchEvent.Update ctx.OrgID { page with Revised := now }] := by
  cases skip <;>
  cases h1 : f.revisionInsert <;> cases h2 : f.pageUpdate <;> cases h3 : f.searchUpdate <;>
  cases h4 : f.counterUpdate <;>
  simp only [UpdatePage, insertRevision, updatePageRow, searchesUpdate, incrementRevisions,
    h1, h2, h3, h4, Bool.false_eq_true, if_false, if_true, reduceCtorEq] at h ⊢
  all_goals
    obtain ⟨a, b, c, d, e⟩ := recomputeLinks_ok _ _ _ _ _ h
    rw [a, b, c, d, e]
    refine ⟨by simp, by simp, ?_, by simp, by simp⟩
    simp only [DeleteSourcePageLinks_link, GetPageLinks_fst]
    rfl

/-! ## C1: the revision snapshot -/

/-- C1, as stated, fails: the store holds page `p1` but no meta row for it, the
update (skipRevision = false) returns no error, and the revision table has no
new row, the INSERT ... SELECT having joined no pair. -/
theorem C1_counterexample :
    (UpdatePage extractNone noFaults ctx1 7 storeNoMeta editedPage "r1" "u2" false).2 = none ∧
    storeNoMeta.page = [storedPage] ∧
    ¬ ∃ r : Revision,
      (UpdatePage extractNone noFaults ctx1 7 storeNoMeta editedPage "r1" "u2" false).1.revision
        = storeNoMeta.revision ++ [r] := by
  refine ⟨by decide, rfl, ?_⟩
  rintro ⟨r, hr⟩
  have h0 : (UpdatePage extractNone noFaults ctx1 7 storeNoMeta editedPage
      "r1" "u2" false).1.revision = [] := by decide
  rw [h0] at hr
  simp [storeNoMeta] at hr

/-- C1, amended: when the store holds exactly one page row `a` with refid =
page.RefID and exactly one pagemeta row `b` with pageid = page.RefID, an
UpdatePage call with skipRevision = false that returns no error appends exactly
one revision row; its title, body, contenttype and pagetype are those of the
stored row `a` (not of the argument), its rawbody and config those of `b`, its
refid is refID, its userid is userID, its ownerid is the stored page's userid. -/
theorem C1_revision_snapshot (G : String → List Link) (f : Faults) (ctx : Context)
    (now : Nat) (s : Store) (page : Page) (refID userID : String) (a : Page) (b : PageMeta)
    (ha : s.page.filter (fun r => r.RefID = page.RefID) = [a])
    (hb : s.pagemeta.filter (fun m => page.RefID = m.PageID) = [b])
    (h : (UpdatePage G f ctx now s page refID userID false).2 = none) :
    ∃ r : Revision,
      (UpdatePage G f ctx now s page refID userID false).1.revision = s.revision ++ [r] ∧
      r.Title = a.Title ∧ r.Body = a.Body ∧ r.ContentType = a.ContentType ∧
      r.PageType = a.PageType ∧ r.RawBody = b.RawBody ∧ r.Config = b.Config ∧
      r.RefID = refID ∧ r.UserID = userID ∧ r.OwnerID = a.UserID ∧
      r.PageID = page.RefID ∧ r.OrgID = a.OrgID ∧ r.DocumentID = a.DocumentID := by
  have hrev := (UpdatePage_ok G f ctx now s page refID userID false h).1
  have haRef : a.RefID = page.RefID := by
    have hmem : a ∈ s.page.filter (fun r => r.RefID = page.RefID) := by simp [ha]
    simpa using (List.mem_filter.mp hmem).2
  refine ⟨{ RefID := refID, OrgID := a.OrgID, DocumentID := a.DocumentID, OwnerID := a.UserID,
            PageID := a.RefID, UserID := userID, ContentType := a.ContentType,
            PageType := a.PageType, Title := a.Title, Body := a.Body, RawBody := b.RawBody,
            Config := b.Config, Created := now, Revised := now }, ?_, ?_⟩
  · rw [hrev]
    simp [revisionRows, ha, haRef, hb]
  · simp [haRef]

/-- C1, amended, at a concrete input: page `p1` with its meta row, updated with a
new title and body; the snapshot keeps the old ones. -/
theorem C1_revision_snapshot_witness :
    ∃ r : Revision,
      (UpdatePage extractNone noFaults ctx1 7 storeOnePage editedPage "r1" "u2" false).1.revision
        = storeOnePage.revision ++ [r] ∧
      r.Title = storedPage.Title ∧ r.Body = storedPage.Body ∧
      r.ContentType = storedPage.ContentType ∧ r.PageType = storedPage.PageType ∧
      r.RawBody = storedMeta.RawBody ∧ r.Config = storedMeta.Config ∧
      r.RefID = "r1" ∧ r.UserID = "u2" ∧ r.OwnerID = storedPage.UserID ∧
      r.PageID = editedPage.RefID ∧ r.OrgID = storedPage.OrgID ∧
      r.DocumentID = storedPage.DocumentID :=
  C1_revision_snapshot extractNone noFaults ctx1 7 storeOnePage editedPage "r1" "u2"
    storedPage storedMeta (by decide) (by decide) (by decide)

/-! ## The new link set -/

theorem carryOrphan_eq (l : Link) (prev : List Link) :
    carryOrphan l prev =
      { l with Orphan :=
          match prev.find? (fun p => decide (l.TargetID = p.TargetID ∧ l.LinkType = p.LinkType)) with
          | some p => p.Orphan
          | none => l.Orphan } := by
  induction prev with
  | nil => rfl
  | cons p ps ih =>
    by_cases hc : l.TargetID = p.TargetID ∧ l.LinkType = p.LinkType
    · simp [carryOrphan, hc]
    · have hf : List.find? (fun q => decide (l.TargetID = q.TargetID ∧ l.LinkType = q.LinkType))
          (p :: ps)
          = List.find? (fun q => decide (l.TargetID = q.TargetID ∧ l.LinkType = q.LinkType)) ps :=
        List.find?_cons_of_neg _ (by simpa using hc)
      rw [hf]
      simp only [carryOrphan, hc, if_false]
      exact ih

/-- The loop body refines the spec's rule: the stored link is the extracted one
stamped with the context and the page, its target cleared when it is a document
link, its orphan flag the carried one. -/
theorem prepareLink_eq (ctx : Context) (page : Page) (prev : List Link) (l : Link) :
    prepareLink ctx page prev l =
      { OrgID := ctx.OrgID, UserID := ctx.UserID, SourceDocumentID := page.DocumentID,
        SourcePageID := page.RefID, TargetID := clearedTarget l, LinkType := l.LinkType,
        Orphan := carriedOrphan prev (clearedTarget l) l.LinkType } := by
  unfold prepareLink
  simp only [carryOrphan_eq, clearedTarget, carriedOrphan]
  by_cases hd : l.LinkType = "document" <;> simp [hd]

theorem carriedOrphan_none (prev : List Link) (t ty : String)
    (h : ∀ p ∈ prev, ¬ (t = p.TargetID ∧ ty = p.LinkType)) : carriedOrphan prev t ty = false := by
  have hf : prev.find? (fun p => decide (t = p.TargetID ∧ ty = p.LinkType)) = none := by
    rw [List.find?_eq_none]
    intro x hx
    simpa using h x hx
  unfold carriedOrphan
  rw [hf]

theorem carriedOrphan_first (pre post : List Link) (p : Link) (t ty : String)
    (hpre : ∀ q ∈ pre, ¬ (t = q.TargetID ∧ ty = q.LinkType))
    (ht : t = p.TargetID) (hty : ty = p.LinkType) :
    carriedOrphan (pre ++ p :: post) t ty = p.Orphan := by
  have hf : (pre ++ p :: post).find? (fun q => decide (t = q.TargetID ∧ ty = q.LinkType))
      = some p := by
    rw [List.find?_eq_some]
    refine ⟨by simp [ht, hty], pre, post, rfl, ?_⟩
    intro a ha
    have := hpre a ha
    simpa [-not_and, not_and_or] using this
  unfold carriedOrphan
  rw [hf]

/-! ## C2: the orphan flag carried forward -/

/-- C2, as stated, fails: page `p1` has two stored document links (target ids
cleared), the first not orphan and the second orphan = true; the new body still
holds two document links; the update returns no error and every stored link is
not orphan: the orphan = true link was not stored again with orphan = true, both
new links having taken the flag of the first previous link with their pair. -/
theorem C2_counterexample :
    (UpdatePage extractTwoDocs noFaults ctx1 7 storeTwoDocLinks editedPage "r1" "u2" true).2
      = none ∧
    linkOfP1 "" "document" true ∈ storeTwoDocLinks.link ∧
    (∃ l ∈ extractTwoDocs editedPage.Body, clearedTarget l = "" ∧ l.LinkType = "document") ∧
    (∀ st ∈ (UpdatePage extractTwoDocs noFaults ctx1 7 storeTwoDocLinks editedPage
        "r1" "u2" true).1.link, st.Orphan = false) := by
  decide

/-- C2, amended: for every UpdatePage call that returns no error, every link
extracted from page.Body is stored, after the previous links were deleted, with
its type, with its target id cleared when it is a document link, and with the
orphan flag of the FIRST link, among the previous links the call read
(`GetPageLinks`, no link when that read failed), that has the same (TargetID,
LinkType) pair; with orphan = false when no read link has that pair. -/
theorem C2_orphan_first_match (G : String → List Link) (f : Faults) (ctx : Context)
    (now : Nat) (s : Store) (page : Page) (refID userID : String) (skip : Bool)
    (h : (UpdatePage G f ctx now s page refID userID skip).2 = none) :
    ∃ stored : List Link,
      (UpdatePage G f ctx now s page refID userID skip).1.link
        = (DeleteSourcePageLinks f ctx s page.RefID).1.link ++ stored ∧
      List.Forall₂
        (fun l st =>
          st.LinkType = l.LinkType ∧ st.TargetID = clearedTarget l ∧
          ((∀ p ∈ (GetPageLinks f ctx s page.DocumentID page.RefID).1,
              ¬ (st.TargetID = p.TargetID ∧ st.LinkType = p.LinkType)) → st.Orphan = false) ∧
          (∀ pre p post, (GetPageLinks f ctx s page.DocumentID page.RefID).1 = pre ++ p :: post →
              (∀ q ∈ pre, ¬ (st.TargetID = q.TargetID ∧ st.LinkType = q.LinkType)) →
              st.TargetID = p.TargetID → st.LinkType = p.LinkType → st.Orphan = p.Orphan))
        (G page.Body) stored := by
  refine ⟨_, (UpdatePage_ok G f ctx now s page refID userID skip h).2.2.1, ?_⟩
  rw [List.forall₂_map_right_iff, List.forall₂_same]
  intro l _
  rw [prepareLink_eq]
  refine ⟨rfl, rfl, ?_, ?_⟩
  · intro hnone
    exact carriedOrphan_none _ _ _ hnone
  · intro pre p post hprev hpre ht hty
    simp only at hpre ht hty ⊢
    rw [hprev]
    exact carriedOrphan_first pre post p _ _ hpre ht hty

/-- C2, amended, at a concrete input: the first previous document link of `p1` is
orphan, and both document links of the new body are stored orphan. -/
theorem C2_orphan_first_match_witness :
    ∃ stored : List Link,
      (UpdatePage extractTwoDocs noFaults ctx1 7
          { storeOnePage with link := [linkOfP1 "" "document" true, linkOfP1 "t" "section" false] }
          editedPage "r1" "u2" true).1.link
        = (DeleteSourcePageLinks noFaults ctx1
            { storeOnePage with link := [linkOfP1 "" "document" true, linkOfP1 "t" "section" false] }
            editedPage.RefID).1.link ++ stored ∧
      List.Forall₂
        (fun l st =>
          st.LinkType = l.LinkType ∧ st.TargetID = clearedTarget l ∧
          ((∀ p ∈ (GetPageLinks noFaults ctx1
              { storeOnePage with link := [linkOfP1 "" "document" true, linkOfP1 "t" "section" false] }
              editedPage.DocumentID editedPage.RefID).1,
              ¬ (st.TargetID = p.TargetID ∧ st.LinkType = p.LinkType)) → st.Orphan = false) ∧
          (∀ pre p post, (GetPageLinks noFaults ctx1
              { storeOnePage with link := [linkOfP1 "" "document" true, linkOfP1 "t" "section" false] }
              editedPage.DocumentID editedPage.RefID).1 = pre ++ p :: post →
              (∀ q ∈ pre, ¬ (st.TargetID = q.TargetID ∧ st.LinkType = q.LinkType)) →
              st.TargetID = p.TargetID → st.LinkType = p.LinkType → st.Orphan = p.Orphan))
        (extractTwoDocs editedPage.Body) stored :=
  C2_orphan_first_match extractTwoDocs noFaults ctx1 7
    { storeOnePage with link := [linkOfP1 "" "document" true, linkOfP1 "t" "section" false] }
    editedPage "r1" "u2" true (by decide)

/-! ## C3: recomputing the links twice -/

theorem carriedOrphan_map (ctx : Context) (page : Page) (prev X : List Link) (l : Link)
    (hl : l ∈ X) :
    carriedOrphan (X.map (prepareLink ctx page prev)) (clearedTarget l) l.LinkType
      = carriedOrphan prev (clearedTarget l) l.LinkType := by
  cases hfind : (X.map (prepareLink ctx page prev)).find?
      (fun p => decide (clearedTarget l = p.TargetID ∧ l.LinkType = p.LinkType)) with
  | none =>
    rw [List.find?_eq_none] at hfind
    have := hfind (prepareLink ctx page prev l) (List.mem_map_of_mem _ hl)
    rw [prepareLink_eq] at this
    simp at this
  | some y =>
    have hy := List.mem_of_find?_eq_some hfind
    have hp := List.find?_some hfind
    obtain ⟨x, _, rfl⟩ := List.mem_map.mp hy
    rw [prepareLink_eq] at hp
    simp only [decide_eq_true_eq] at hp
    conv_lhs => unfold carriedOrphan
    rw [hfind, prepareLink_eq]
    simp only
    rw [hp.1, hp.2]

/-- The link table after a recomputation whose read and delete did not fail and
which returned no error, recomputed once more, is the same table. -/
theorem links_recomputed_twice (G : String → List Link) (f : Faults) (ctx : Context)
    (page : Page) (L : List Link)
    (hget : f.getPageLinks = none) (hdel : f.deleteSourcePageLinks = none) :
    linksKept f ctx
        (linksKept f ctx L page.RefID ++
          (G page.Body).map (prepareLink ctx page (linksRead f ctx L page.DocumentID page.RefID)))
        page.RefID ++
      (G page.Body).map (prepareLink ctx page
        (linksRead f ctx
          (linksKept f ctx L page.RefID ++
            (G page.Body).map
              (prepareLink ctx page (linksRead f ctx L page.DocumentID page.RefID)))
          page.DocumentID page.RefID))
    = linksKept f ctx L page.RefID ++
        (G page.Body).map (prepareLink ctx page (linksRead f ctx L page.DocumentID page.RefID)) := by
  have hkept : linksKept f ctx
      (linksKept f ctx L page.RefID ++
        (G page.Body).map (prepareLink ctx page (linksRead f ctx L page.DocumentID page.RefID)))
      page.RefID = linksKept f ctx L page.RefID := by
    simp only [linksKept, hdel, List.filter_append, List.filter_filter]
    have h2 : List.filter (fun l => !decide (l.OrgID = ctx.OrgID ∧ l.SourcePageID = page.RefID))
        ((G page.Body).map
          (prepareLink ctx page (linksRead f ctx L page.DocumentID page.RefID))) = [] := by
      rw [List.filter_eq_nil_iff]
      intro a ha
      obtain ⟨x, _, rfl⟩ := List.mem_map.mp ha
      rw [prepareLink_eq]
      simp
    rw [h2]
    simp
  have hread : linksRead f ctx
      (linksKept f ctx L page.RefID ++
        (G page.Body).map (prepareLink ctx page (linksRead f ctx L page.DocumentID page.RefID)))
      page.DocumentID page.RefID
      = (G page.Body).map
          (prepareLink ctx page (linksRead f ctx L page.DocumentID page.RefID)) := by
    generalize linksRead f ctx L page.DocumentID page.RefID = prev
    have h1 : List.filter
        (fun l => decide (l.OrgID = ctx.OrgID ∧ l.SourceDocumentID = page.DocumentID ∧
          l.SourcePageID = page.RefID)) (linksKept f ctx L page.RefID) = [] := by
      simp only [linksKept, hdel, List.filter_filter]
      rw [List.filter_eq_nil_iff]
      intro a _
      by_cases h1 : a.OrgID = ctx.OrgID <;> by_cases h2 : a.SourcePageID = page.RefID <;>
        simp [h1, h2]
    have h2 : List.filter
        (fun l => decide (l.OrgID = ctx.OrgID ∧ l.SourceDocumentID = page.DocumentID ∧
          l.SourcePageID = page.RefID))
        ((G page.Body).map (prepareLink ctx page prev))
        = (G page.Body).map (prepareLink ctx page prev) := by
      rw [List.filter_eq_self]
      intro a ha
      obtain ⟨x, _, rfl⟩ := List.mem_map.mp ha
      rw [prepareLink_eq]
      simp
    conv_lhs => unfold linksRead
    simp only [hget, List.filter_append]
    rw [h1, h2]
    simp
  rw [hkept, hread]
  congr 1
  apply List.map_congr_left
  intro l hl
  rw [prepareLink_eq, prepareLink_eq, carriedOrphan_map ctx page _ _ l hl]

theorem recomputeLinks_eq (G : String → List Link) (f : Faults) (ctx : Context)
    (s : Store) (page : Page) (h : (recomputeLinks G f ctx s page).2 = none) :
    (recomputeLinks G f ctx s page).1 =
      { s with
        link := linksKept f ctx s.link page.RefID ++
                  (G page.Body).map
                    (prepareLink ctx page
                      (linksRead f ctx s.link page.DocumentID page.RefID)) } := by
  obtain ⟨a, b, c, d, e⟩ := recomputeLinks_ok G f ctx s page h
  rw [DeleteSourcePageLinks_link, GetPageLinks_fst] at a
  generalize (recomputeLinks G f ctx s page).1 = t at a b c d e
  cases t
  cases s
  simp_all

theorem recomputeLinks_noFail (G : String → List Link) (f : Faults) (ctx : Context)
    (s : Store) (page : Page) (hadd : ∀ l, f.addContentLink l = none) :
    (recomputeLinks G f ctx s page).2 = none :=
  saveLinks_noFail f ctx page _ _ _ hadd

/-- C3: link recomputation is idempotent.  When no store operation of the link
recomputation fails (the read of the previous links, the delete, the inserts),
the recomputation returns no error, and running it a second time with the same
page and body leaves the whole store, hence the stored link set of the page with
its targets, types and orphan flags, as the first run left it, whatever links
the body holds (several may share a (target, type) pair).  The same holds for the
link table across two UpdatePage calls with the same page that return no
error. -/
theorem C3_link_recomputation_idempotent (G : String → List Link) (f : Faults)
    (ctx : Context) (s : Store) (page : Page)
    (hget : f.getPageLinks = none) (hdel : f.deleteSourcePageLinks = none)
    (hadd : ∀ l, f.addContentLink l = none) :
    (recomputeLinks G f ctx s page).2 = none ∧
    (recomputeLinks G f ctx (recomputeLinks G f ctx s page).1 page).2 = none ∧
    (recomputeLinks G f ctx (recomputeLinks G f ctx s page).1 page).1
      = (recomputeLinks G f ctx s page).1 ∧
    ∀ (now now2 : Nat) (refID refID2 userID userID2 : String) (skip skip2 : Bool),
      (UpdatePage G f ctx now s page refID userID skip).2 = none →
      (UpdatePage G f ctx now2 (UpdatePage G f ctx now s page refID userID skip).1 page
        refID2 userID2 skip2).2 = none →
      (UpdatePage G f ctx now2 (UpdatePage G f ctx now s page refID userID skip).1 page
        refID2 userID2 skip2).1.link
        = (UpdatePage G f ctx now s page refID userID skip).1.link := by
  have h1 := recomputeLinks_noFail G f ctx s page hadd
  have h2 := recomputeLinks_noFail G f ctx (recomputeLinks G f ctx s page).1 page hadd
  refine ⟨h1, h2, ?_, ?_⟩
  · rw [recomputeLinks_eq G f ctx _ page h2, recomputeLinks_eq G f ctx s page h1]
    simp only
    rw [links_recomputed_twice G f ctx page s.link hget hdel]
  · intro now now2 refID refID2 userID userID2 skip skip2 e1 e2
    have a1 := (UpdatePage_ok G f ctx now s page refID userID skip e1).2.2.1
    have a2 := (UpdatePage_ok G f ctx now2 _ page refID2 userID2 skip2 e2).2.2.1
    rw [DeleteSourcePageLinks_link, GetPageLinks_fst] at a1 a2
    rw [a2, a1]
    exact links_recomputed_twice G f ctx page s.link hget hdel

/-- C3 at a concrete input: no fault, page `p1` with two stored document links,
a body with two document links (the same (target, type) pair after clearing),
the links recomputed twice and the page saved twice. -/
theorem C3_link_recomputation_idempotent_witness :
    (recomputeLinks extractTwoDocs noFaults ctx1 storeTwoDocLinks editedPage).2 = none ∧
    (recomputeLinks extractTwoDocs noFaults ctx1
      (recomputeLinks extractTwoDocs noFaults ctx1 storeTwoDocLinks editedPage).1 editedPage).2
      = none ∧
    (recomputeLinks extractTwoDocs noFaults ctx1
      (recomputeLinks extractTwoDocs noFaults ctx1 storeTwoDocLinks editedPage).1 editedPage).1
      = (recomputeLinks extractTwoDocs noFaults ctx1 storeTwoDocLinks editedPage).1 ∧
    (UpdatePage extractTwoDocs noFaults ctx1 8
      (UpdatePage extractTwoDocs noFaults ctx1 7 storeTwoDocLinks editedPage "r1" "u2" false).1
      editedPage "r2" "u3" true).1.link
      = (UpdatePage extractTwoDocs noFaults ctx1 7 storeTwoDocLinks editedPage
          "r1" "u2" false).1.link :=
  have h := C3_link_recomputation_idempotent extractTwoDocs noFaults ctx1 storeTwoDocLinks
    editedPage rfl rfl (fun _ => rfl)
  ⟨h.1, h.2.1, h.2.2.1,
    h.2.2.2 7 8 "r1" "r2" "u2" "u3" false true (by decide) (by decide)⟩

/-! ## C4: the stored links of the page after an update -/

/-- C4, as stated, fails: the delete of the previous source links fails, its
error is dropped, the body holds no link, UpdatePage returns no error, and the
previously stored link of `p1` to `t0` is still stored. -/
theorem C4_counterexample :
    (UpdatePage extractNone failDelete ctx1 7 storeOldLink editedPage "r1" "u2" true).2 = none ∧
    extractNone editedPage.Body = [] ∧
    (UpdatePage extractNone failDelete ctx1 7 storeOldLink editedPage "r1" "u2" true).1.link.filter
      (fun l => l.SourcePageID = editedPage.RefID) = [linkOfP1 "t0" "section" false] := by
  decide

/-- C4, amended: for every UpdatePage call that returns no error and whose delete
of the previous source links did not fail, the stored links of the context's
organization whose source page is page.RefID are afterwards exactly the links
extracted from the new body, one stored link per extracted link in extraction
order, each with the extracted type and (cleared, for a document link) target
and stamped with SourcePageID = page.RefID, SourceDocumentID = page.DocumentID
and the context's OrgID and UserID: no previous source link of the page is
retained.  All other stored links are as before. -/
theorem C4_links_replaced (G : String → List Link) (f : Faults) (ctx : Context)
    (now : Nat) (s : Store) (page : Page) (refID userID : String) (skip : Bool)
    (h : (UpdatePage G f ctx now s page refID userID skip).2 = none)
    (hdel : f.deleteSourcePageLinks = none) :
    List.Forall₂
      (fun l st =>
        st.SourcePageID = page.RefID ∧ st.SourceDocumentID = page.DocumentID ∧
        st.OrgID = ctx.OrgID ∧ st.UserID = ctx.UserID ∧
        st.LinkType = l.LinkType ∧ st.TargetID = clearedTarget l)
      (G page.Body)
      ((UpdatePage G f ctx now s page refID userID skip).1.link.filter
        (fun st => st.OrgID = ctx.OrgID ∧ st.SourcePageID = page.RefID)) ∧
    (UpdatePage G f ctx now s page refID userID skip).1.link.filter
        (fun st => !decide (st.OrgID = ctx.OrgID ∧ st.SourcePageID = page.RefID))
      = s.link.filter (fun st => !decide (st.OrgID = ctx.OrgID ∧ st.SourcePageID = page.RefID)) := by
  have a := (UpdatePage_ok G f ctx now s page refID userID skip h).2.2.1
  rw [DeleteSourcePageLinks_link, GetPageLinks_fst] at a
  generalize linksRead f ctx s.link page.DocumentID page.RefID = prev at a
  have hnew : ∀ st ∈ (G page.Body).map (prepareLink ctx page prev),
      st.OrgID = ctx.OrgID ∧ st.SourcePageID = page.RefID := by
    intro st hst
    obtain ⟨x, _, rfl⟩ := List.mem_map.mp hst
    rw [prepareLink_eq]
    exact ⟨rfl, rfl⟩
  have h1 : List.filter (fun st => decide (st.OrgID = ctx.OrgID ∧ st.SourcePageID = page.RefID))
      (linksKept f ctx s.link page.RefID) = [] := by
    simp only [linksKept, hdel, List.filter_filter]
    rw [List.filter_eq_nil_iff]
    intro x _
    by_cases h1 : x.OrgID = ctx.OrgID <;> by_cases h2 : x.SourcePageID = page.RefID <;>
      simp [h1, h2]
  have h2 : List.filter (fun st => decide (st.OrgID = ctx.OrgID ∧ st.SourcePageID = page.RefID))
      ((G page.Body).map (prepareLink ctx page prev))
      = (G page.Body).map (prepareLink ctx page prev) := by
    rw [List.filter_eq_self]
    intro x hx
    simpa using hnew x hx
  have h3 : List.filter
      (fun st => !decide (st.OrgID = ctx.OrgID ∧ st.SourcePageID = page.RefID))
      ((G page.Body).map (prepareLink ctx page prev)) = [] := by
    rw [List.filter_eq_nil_iff]
    intro x hx
    have := hnew x hx
    simp [this.1, this.2]
  have h4 : List.filter
      (fun st => !decide (st.OrgID = ctx.OrgID ∧ st.SourcePageID = page.RefID))
      (linksKept f ctx s.link page.RefID)
      = s.link.filter
          (fun st => !decide (st.OrgID = ctx.OrgID ∧ st.SourcePageID = page.RefID)) := by
    simp only [linksKept, hdel, List.filter_filter]
    apply List.filter_congr
    intro x _
    simp
  rw [a, List.filter_append, List.filter_append, h1, h2, h3, h4]
  refine ⟨?_, by simp⟩
  rw [List.nil_append, List.forall₂_map_right_iff, List.forall₂_same]
  intro l _
  rw [prepareLink_eq]
  exact ⟨rfl, rfl, rfl, rfl, rfl, rfl⟩

/-- C4, amended, at a concrete input: no fault, page `p1` with an old link to
`t0`, a new body with two document links. -/
theorem C4_links_replaced_witness :
    List.Forall₂
      (fun l st =>
        st.SourcePageID = editedPage.RefID ∧ st.SourceDocumentID = editedPage.DocumentID ∧
        st.OrgID = ctx1.OrgID ∧ st.UserID = ctx1.UserID ∧
        st.LinkType = l.LinkType ∧ st.TargetID = clearedTarget l)
      (extractTwoDocs editedPage.Body)
      ((UpdatePage extractTwoDocs noFaults ctx1 7 storeOldLink editedPage "r1" "u2" false).1.link.filter
        (fun st => st.OrgID = ctx1.OrgID ∧ st.SourcePageID = editedPage.RefID)) ∧
    (UpdatePage extractTwoDocs noFaults ctx1 7 storeOldLink editedPage "r1" "u2" false).1.link.filter
        (fun st => !decide (st.OrgID = ctx1.OrgID ∧ st.SourcePageID = editedPage.RefID))
      = storeOldLink.link.filter
          (fun st => !decide (st.OrgID = ctx1.OrgID ∧ st.SourcePageID = editedPage.RefID)) :=
  C4_links_replaced extractTwoDocs noFaults ctx1 7 storeOldLink editedPage "r1" "u2" false
    (by decide) rfl

/-! ## C5: what an error return leaves behind -/

/-- A failed save of the links: the links before the failing one are stored, in order,
and the loop returned the error of the first insert that failed. -/
theorem saveLinks_err (f : Faults) (ctx : Context) (page : Page) (prev : List Link)
    (links : List Link) (s : Store) (e : String)
    (h : (saveLinks f ctx page prev links s).2 = some e) :
    ∃ (saved : List Link) (l : Link) (rest : List Link),
      links = saved ++ l :: rest ∧
      (∀ x ∈ saved, f.addContentLink (prepareLink ctx page prev x) = none) ∧
      f.addContentLink (prepareLink ctx page prev l) = some e ∧
      (saveLinks f ctx page prev links s).1
        = { s with link := s.link ++ saved.map (prepareLink ctx page prev) } := by
  induction links generalizing s with
  | nil => simp [saveLinks] at h
  | cons l rest ih =>
    cases hl : f.addContentLink (prepareLink ctx page prev l) with
    | some e0 =>
      have he : e0 = e := by simpa [saveLinks, AddContentLink, hl] using h
      subst he
      exact ⟨[], l, rest, rfl, by simp, hl, by simp [saveLinks, AddContentLink, hl]⟩
    | none =>
      have hstep : saveLinks f ctx page prev (l :: rest) s
          = saveLinks f ctx page prev rest
              { s with link := s.link ++ [prepareLink ctx page prev l] } := by
        simp [saveLinks, AddContentLink, hl]
      rw [hstep] at h
      obtain ⟨saved, l0, rest0, hsplit, hsaved, hfail, hst⟩ := ih _ h
      refine ⟨l :: saved, l0, rest0, by rw [hsplit]; rfl, ?_, hfail, ?_⟩
      · intro x hx
        rcases List.mem_cons.mp hx with rfl | hx
        · exact hl
        · exact hsaved x hx
      · rw [hstep, hst]
        simp

/-- C5, as stated, fails: UpdatePage undoes nothing.  On page `p1` with its meta
row (skipRevision = false): when the page UPDATE fails the revision row stays
inserted; when the search-index update fails the revision row stays and the
page row stays updated; when the counter UPDATE fails the index has moreover
received the update; when the insert of the second content link fails the old
link of the page is gone and the first new link is stored.  Each call returns
the error. -/
theorem C5_counterexample :
    ((UpdatePage extractNone failPageUpdate ctx1 7 storeOnePage editedPage "r1" "u2" false).2
        = some "update failed" ∧
      (UpdatePage extractNone failPageUpdate ctx1 7 storeOnePage editedPage "r1" "u2" false).1.revision
        ≠ storeOnePage.revision) ∧
    ((UpdatePage extractNone failSearch ctx1 7 storeOnePage editedPage "r1" "u2" false).2
        = some "index unavailable" ∧
      (UpdatePage extractNone failSearch ctx1 7 storeOnePage editedPage "r1" "u2" false).1.revision
        ≠ storeOnePage.revision ∧
      (UpdatePage extractNone failSearch ctx1 7 storeOnePage editedPage "r1" "u2" false).1.page
        ≠ storeOnePage.page) ∧
    ((UpdatePage extractNone failCounter ctx1 7 storeOnePage editedPage "r1" "u2" false).2
        = some "counter failed" ∧
      (UpdatePage extractNone failCounter ctx1 7 storeOnePage editedPage "r1" "u2" false).1.page
        ≠ storeOnePage.page ∧
      (UpdatePage extractNone failCounter ctx1 7 storeOnePage editedPage "r1" "u2" false).1.search
        ≠ storeOnePage.search) ∧
    ((UpdatePage extractTwoSections failLinkT2 ctx1 7 storeOldLink editedPage "r1" "u2" false).2
        = some "insert failed" ∧
      (UpdatePage extractTwoSections failLinkT2 ctx1 7 storeOldLink editedPage "r1" "u2" false).1.link
        = [{ linkOfP1 "t1" "section" false with UserID := "u1" }]) := by
  decide

/-- C5, amended: UpdatePage undoes nothing; every error return hands back the error of
the step that failed together with the effects of all the steps before it.
When its first write fails (the revision insert, or the page update when
skipRevision is set) the page, pagemeta, revision and content-link tables and
the search index are the same as before the call.  When the page update fails
after the revision insert, the revision rows stay inserted; when the search
index update fails, the page row moreover stays updated; when the counter
update fails, the index has moreover received the update; when the insert of a
content link fails, the counter moreover stays incremented, the old outgoing
links of the page are deleted (unless that delete failed) and the links before
the failing one are stored.  Undoing any of this is left to the caller. -/
theorem C5_error_leaves_earlier_effects (G : String → List Link) (f : Faults)
    (ctx : Context) (now : Nat) (s : Store) (page : Page) (refID userID : String)
    (skip : Bool) (e : String) :
    ((if skip then f.pageUpdate else f.revisionInsert) = some e →
      UpdatePage G f ctx now s page refID userID skip = (s, some e)) ∧
    ((skip = true ∨ f.revisionInsert = none) → f.pageUpdate = some e →
      UpdatePage G f ctx now s page refID userID skip
        = (afterRevision now s page refID userID skip, some e)) ∧
    ((skip = true ∨ f.revisionInsert = none) → f.pageUpdate = none →
      f.searchUpdate = some e →
      UpdatePage G f ctx now s page refID userID skip
        = (afterPageUpdate now s page refID userID skip, some e)) ∧
    (skip = false → f.revisionInsert = none → f.pageUpdate = none →
      f.searchUpdate = none → f.counterUpdate = some e →
      UpdatePage G f ctx now s page refID userID skip
        = (afterSearchUpdate ctx now s page refID userID skip, some e)) ∧
    ((skip = true ∨ f.revisionInsert = none) → f.pageUpdate = none →
      f.searchUpdate = none → (skip = true ∨ f.counterUpdate = none) →
      (UpdatePage G f ctx now s page refID userID skip).2 = some e →
      ∃ (saved : List Link) (l : Link) (rest : List Link),
        G page.Body = saved ++ l :: rest ∧
        (∀ x ∈ saved, f.addContentLink (prepareLink ctx { page with Revised := now }
          (linksRead f ctx s.link page.DocumentID page.RefID) x) = none) ∧
        f.addContentLink (prepareLink ctx { page with Revised := now }
          (linksRead f ctx s.link page.DocumentID page.RefID) l) = some e ∧
        (UpdatePage G f ctx now s page refID userID skip).1
          = { afterCounter ctx now s page refID userID skip with
              link := linksKept f ctx s.link page.RefID ++
                saved.map (prepareLink ctx { page with Revised := now }
                  (linksRead f ctx s.link page.DocumentID page.RefID)) }) := by
  refine ⟨?_, ?_, ?_, ?_, ?_⟩
  · intro hfirst
    cases skip
    · simp only [Bool.false_eq_true, if_false] at hfirst
      simp [UpdatePage, insertRevision, hfirst]
    · simp only [if_true] at hfirst
      simp [UpdatePage, updatePageRow, hfirst]
  · intro hr hp
    cases skip
    · have hr0 : f.revisionInsert = none := by simpa using hr
      simp [UpdatePage, insertRevision, updatePageRow, afterRevision, hr0, hp]
    · simp [UpdatePage, updatePageRow, afterRevision, hp]
  · intro hr hp hs
    cases skip
    · have hr0 : f.revisionInsert = none := by simpa using hr
      simp [UpdatePage, insertRevision, updatePageRow, searchesUpdate, afterPageUpdate,
        afterRevision, hr0, hp, hs]
    · simp [UpdatePage, updatePageRow, searchesUpdate, afterPageUpdate, afterRevision, hp, hs]
  · intro hk hr hp hs hc
    subst hk
    simp [UpdatePage, insertRevision, updatePageRow, searchesUpdate, incrementRevisions,
      afterSearchUpdate, afterPageUpdate, afterRevision, hr, hp, hs, hc]
  · intro hr hp hs hc h
    have hU : UpdatePage G f ctx now s page refID userID skip
        = recomputeLinks G f ctx (afterCounter ctx now s page refID userID skip)
            { page with Revised := now } := by
      cases skip
      · have hr0 : f.revisionInsert = none := by simpa using hr
        have hc0 : f.counterUpdate = none := by simpa using hc
        simp [UpdatePage, insertRevision, updatePageRow, searchesUpdate, incrementRevisions,
          afterCounter, afterSearchUpdate, afterPageUpdate, afterRevision, hr0, hp, hs, hc0]
      · simp [UpdatePage, updatePageRow, searchesUpdate, afterCounter, afterSearchUpdate,
          afterPageUpdate, afterRevision, hp, hs]
    have hlink : (afterCounter ctx now s page refID userID skip).link = s.link := by
      cases skip <;> simp [afterCounter, afterSearchUpdate, afterPageUpdate, afterRevision]
    rw [hU] at h ⊢
    unfold recomputeLinks at h ⊢
    obtain ⟨saved, l, rest, hsplit, hsaved, hfail, hst⟩ := saveLinks_err _ _ _ _ _ _ _ h
    rw [GetPageLinks_fst, hlink] at hsaved hfail hst
    refine ⟨saved, l, rest, hsplit, hsaved, hfail, ?_⟩
    rw [GetPageLinks_fst, hlink, hst, DeleteSourcePageLinks_link, hlink]
    obtain ⟨h1, h2, h3, h4⟩ := DeleteSourcePageLinks_frame f ctx
      (afterCounter ctx now s page refID userID skip) page.RefID
    simp only [Store.mk.injEq]
    exact ⟨h1, h2, h3, trivial, h4⟩

/-- C5, amended, at a concrete input: the search index update fails after the revision
insert and the page update, which both stay in the tables. -/
theorem C5_error_leaves_earlier_effects_witness :
    UpdatePage extractNone failSearch ctx1 7 storeOnePage editedPage "r1" "u2" false
      = (afterPageUpdate 7 storeOnePage editedPage "r1" "u2" false, some "index unavailable") ∧
    (afterPageUpdate 7 storeOnePage editedPage "r1" "u2" false).revision.map Revision.RefID
      = ["r1"] ∧
    (afterPageUpdate 7 storeOnePage editedPage "r1" "u2" false).page.map Page.Title
      = ["New title"] ∧
    storeOnePage.revision = [] ∧ storeOnePage.page.map Page.Title ≠ ["New title"] :=
  ⟨(C5_error_leaves_earlier_effects extractNone failSearch ctx1 7 storeOnePage editedPage
      "r1" "u2" false "index unavailable").2.2.1 (Or.inr rfl) rfl rfl,
    by decide, by decide, by decide, by decide⟩

/-! ## C6, C7: the revisions counter -/

theorem updatedRow_key (page r : Page) :
    (updatedRow page r).RefID = r.RefID ∧ (updatedRow page r).OrgID = r.OrgID ∧
    (updatedRow page r).Revisions
      = (if r.OrgID = page.OrgID ∧ r.RefID = page.RefID then page.Revisions else r.Revisions) := by
  unfold updatedRow
  split <;> simp

theorem incrementedRow_key (ctx : Context) (refID : String) (r : Page) :
    (incrementedRow ctx refID r).RefID = r.RefID ∧ (incrementedRow ctx refID r).OrgID = r.OrgID ∧
    (incrementedRow ctx refID r).Revisions
      = r.Revisions + (if r.OrgID = ctx.OrgID ∧ r.RefID = refID then 1 else 0) := by
  unfold incrementedRow
  split <;> simp

/-- C6, as stated, fails: page `p1` is stored with revisions = 3, the argument
carries revisions = 0, skipRevision = true; the call returns no error, the
revision table is unchanged, and the stored counter is 0 afterwards. -/
theorem C6_counterexample :
    (UpdatePage extractNone noFaults ctx1 7 storeOnePage editedPage "r1" "u2" true).2 = none ∧
    (UpdatePage extractNone noFaults ctx1 7 storeOnePage editedPage "r1" "u2" true).1.revision
      = storeOnePage.revision ∧
    storeOnePage.page.map Page.Revisions = [3] ∧
    (UpdatePage extractNone noFaults ctx1 7 storeOnePage editedPage "r1" "u2" true).1.page.map
      Page.Revisions = [0] := by
  decide

/-- C6, amended: for every store state and every UpdatePage call with skipRevision =
true that returns no error, the revision table is unchanged, and the page table
holds the same rows in the same order, where the revisions counter of the row
keyed by (page.OrgID, page.RefID) is page.Revisions of the argument (unchanged
only if the argument carries the stored value) and the counter of every other
row is unchanged. -/
theorem C6_skip_revision (G : String → List Link) (f : Faults) (ctx : Context)
    (now : Nat) (s : Store) (page : Page) (refID userID : String)
    (h : (UpdatePage G f ctx now s page refID userID true).2 = none) :
    (UpdatePage G f ctx now s page refID userID true).1.revision = s.revision ∧
    List.Forall₂
      (fun r r' => r'.RefID = r.RefID ∧ r'.OrgID = r.OrgID ∧
        r'.Revisions
          = (if r.OrgID = page.OrgID ∧ r.RefID = page.RefID then page.Revisions else r.Revisions))
      s.page (UpdatePage G f ctx now s page refID userID true).1.page := by
  obtain ⟨a, b, _⟩ := UpdatePage_ok G f ctx now s page refID userID true h
  simp only [if_true] at a b
  refine ⟨a, ?_⟩
  rw [b, List.forall₂_map_right_iff, List.forall₂_same]
  intro r _
  exact updatedRow_key { page with Revised := now } r

/-- C6, amended, at a concrete input: stored counter 3, argument counter 0. -/
theorem C6_skip_revision_witness :
    (UpdatePage extractNone noFaults ctx1 7 storeOnePage editedPage "r1" "u2" true).1.revision
      = storeOnePage.revision ∧
    List.Forall₂
      (fun r r' => r'.RefID = r.RefID ∧ r'.OrgID = r.OrgID ∧
        r'.Revisions
          = (if r.OrgID = editedPage.OrgID ∧ r.RefID = editedPage.RefID
              then editedPage.Revisions else r.Revisions))
      storeOnePage.page
      (UpdatePage extractNone noFaults ctx1 7 storeOnePage editedPage "r1" "u2" true).1.page :=
  C6_skip_revision extractNone noFaults ctx1 7 storeOnePage editedPage "r1" "u2" (by decide)

/-- C7, as stated, fails: page `p1` is stored with revisions = 3, the argument
carries revisions = 0, skipRevision = false; the call returns no error and the
stored counter is 1 afterwards, not 4. -/
theorem C7_counterexample :
    (UpdatePage extractNone noFaults ctx1 7 storeOnePage editedPage "r1" "u2" false).2 = none ∧
    storeOnePage.page.map Page.Revisions = [3] ∧
    (UpdatePage extractNone noFaults ctx1 7 storeOnePage editedPage "r1" "u2" false).1.page.map
      Page.Revisions = [1] := by
  decide

/-- C7, amended: for every store state and every UpdatePage call with skipRevision =
false that returns no error, the page table holds the same rows in the same
order, and the revisions counter of each row is: page.Revisions of the argument
if the row is keyed by (page.OrgID, page.RefID), else its stored value; plus 1
if the row is keyed by (Context.OrgID, page.RefID).  So for the page of the
context's organization, with page.OrgID = Context.OrgID, the counter afterwards
is page.Revisions + 1, which is the stored counter plus 1 only when the argument
carries the stored counter. -/
theorem C7_counter_incremented (G : String → List Link) (f : Faults) (ctx : Context)
    (now : Nat) (s : Store) (page : Page) (refID userID : String)
    (h : (UpdatePage G f ctx now s page refID userID false).2 = none) :
    List.Forall₂
      (fun r r' => r'.RefID = r.RefID ∧ r'.OrgID = r.OrgID ∧
        r'.Revisions
          = (if r.OrgID = page.OrgID ∧ r.RefID = page.RefID then page.Revisions else r.Revisions)
            + (if r.OrgID = ctx.OrgID ∧ r.RefID = page.RefID then 1 else 0))
      s.page (UpdatePage G f ctx now s page refID userID false).1.page := by
  obtain ⟨_, b, _⟩ := UpdatePage_ok G f ctx now s page refID userID false h
  simp only [Bool.false_eq_true, if_false] at b
  rw [b, List.map_map, List.forall₂_map_right_iff, List.forall₂_same]
  intro r _
  obtain ⟨u1, u2, u3⟩ := updatedRow_key { page with Revised := now } r
  obtain ⟨i1, i2, i3⟩ := incrementedRow_key ctx page.RefID (updatedRow { page with Revised := now } r)
  simp only [Function.comp_apply]
  rw [u1, u2] at i3
  exact ⟨i1.trans u1, i2.trans u2, by rw [i3, u3]⟩

/-- C7, amended, at a concrete input: stored counter 3, argument counter 0. -/
theorem C7_counter_incremented_witness :
    List.Forall₂
      (fun r r' => r'.RefID = r.RefID ∧ r'.OrgID = r.OrgID ∧
        r'.Revisions
          = (if r.OrgID = editedPage.OrgID ∧ r.RefID = editedPage.RefID
              then editedPage.Revisions else r.Revisions)
            + (if r.OrgID = ctx1.OrgID ∧ r.RefID = editedPage.RefID then 1 else 0))
      storeOnePage.page
      (UpdatePage extractNone noFaults ctx1 7 storeOnePage editedPage "r1" "u2" false).1.page :=
  C7_counter_incremented extractNone noFaults ctx1 7 storeOnePage editedPage "r1" "u2"
    (by decide)

/-! ## C8: a failed search-index update -/

/-- C8: when the Search Index Sync update is reached (the revision insert, unless
skipped, and the page update did not fail) and fails with error `e`, UpdatePage
returns `e` and performs none of the later steps: the content-link table is as
before the call (no link deleted, none inserted), the revisions counter of no row
is incremented (each row holds what the page UPDATE left: page.Revisions in the
row keyed by (page.OrgID, page.RefID), the stored value elsewhere), and the index
has received nothing. -/
theorem C8_search_failure_aborts (G : String → List Link) (f : Faults) (ctx : Context)
    (now : Nat) (s : Store) (page : Page) (refID userID : String) (skip : Bool) (e : String)
    (hrev : skip = true ∨ f.revisionInsert = none) (hupd : f.pageUpdate = none)
    (hsearch : f.searchUpdate = some e) :
    (UpdatePage G f ctx now s page refID userID skip).2 = some e ∧
    (UpdatePage G f ctx now s page refID userID skip).1.link = s.link ∧
    (UpdatePage G f ctx now s page refID userID skip).1.search = s.search ∧
    List.Forall₂
      (fun r r' => r'.RefID = r.RefID ∧ r'.OrgID = r.OrgID ∧
        r'.Revisions
          = (if r.OrgID = page.OrgID ∧ r.RefID = page.RefID then page.Revisions else r.Revisions))
      s.page (UpdatePage G f ctx now s page refID userID skip).1.page := by
  have key : (UpdatePage G f ctx now s page refID userID skip).2 = some e ∧
      (UpdatePage G f ctx now s page refID userID skip).1.link = s.link ∧
      (UpdatePage G f ctx now s page refID userID skip).1.search = s.search ∧
      (UpdatePage G f ctx now s page refID userID skip).1.page
        = s.page.map (updatedRow { page with Revised := now }) := by
    cases skip
    · have hr : f.revisionInsert = none := by simpa using hrev
      simp [UpdatePage, insertRevision, updatePageRow, searchesUpdate, hr, hupd, hsearch]
    · simp [UpdatePage, updatePageRow, searchesUpdate, hupd, hsearch]
  obtain ⟨k1, k2, k3, k4⟩ := key
  refine ⟨k1, k2, k3, ?_⟩
  rw [k4, List.forall₂_map_right_iff, List.forall₂_same]
  intro r _
  exact updatedRow_key { page with Revised := now } r

/-- C8 at a concrete input: the index is unavailable while page `p1`, which has a
stored link, is saved with a body holding two links. -/
theorem C8_search_failure_aborts_witness :
    (UpdatePage extractTwoSections failSearch ctx1 7 storeOldLink editedPage "r1" "u2" false).2
      = some "index unavailable" ∧
    (UpdatePage extractTwoSections failSearch ctx1 7 storeOldLink editedPage "r1" "u2" false).1.link
      = storeOldLink.link ∧
    (UpdatePage extractTwoSections failSearch ctx1 7 storeOldLink editedPage "r1" "u2" false).1.search
      = storeOldLink.search ∧
    List.Forall₂
      (fun r r' => r'.RefID = r.RefID ∧ r'.OrgID = r.OrgID ∧
        r'.Revisions
          = (if r.OrgID = editedPage.OrgID ∧ r.RefID = editedPage.RefID
              then editedPage.Revisions else r.Revisions))
      storeOldLink.page
      (UpdatePage extractTwoSections failSearch ctx1 7 storeOldLink editedPage
        "r1" "u2" false).1.page :=
  C8_search_failure_aborts extractTwoSections failSearch ctx1 7 storeOldLink editedPage
    "r1" "u2" false "index unavailable" (Or.inr rfl) rfl rfl

/-! ## C9: the target id of a stored link -/

/-- C9: for every UpdatePage call that returns no error, the content-link table
afterwards is the rows the delete step kept (rows of the table before the call)
followed by the links the call stored, one per extracted link in extraction
order; every stored link has the type of its extracted link; when that type is
"document" its TargetID is empty, otherwise its TargetID is the one the
extractor produced. -/
theorem C9_document_target_cleared (G : String → List Link) (f : Faults) (ctx : Context)
    (now : Nat) (s : Store) (page : Page) (refID userID : String) (skip : Bool)
    (h : (UpdatePage G f ctx now s page refID userID skip).2 = none) :
    ∃ kept stored : List Link,
      (UpdatePage G f ctx now s page refID userID skip).1.link = kept ++ stored ∧
      kept.Sublist s.link ∧
      List.Forall₂
        (fun l st => st.LinkType = l.LinkType ∧
          (st.LinkType = "document" → st.TargetID = "") ∧
          (st.LinkType ≠ "document" → st.TargetID = l.TargetID))
        (G page.Body) stored := by
  have a := (UpdatePage_ok G f ctx now s page refID userID skip h).2.2.1
  rw [DeleteSourcePageLinks_link] at a
  refine ⟨_, _, a, ?_, ?_⟩
  · unfold linksKept
    cases f.deleteSourcePageLinks with
    | none => exact List.filter_sublist _
    | some _ => exact List.Sublist.refl _
  · rw [List.forall₂_map_right_iff, List.forall₂_same]
    intro l _
    rw [prepareLink_eq]
    refine ⟨rfl, ?_, ?_⟩
    · intro hd
      simp only at hd
      simp [clearedTarget, hd]
    · intro hd
      simp only at hd
      simp [clearedTarget, hd]

/-- C9 at a concrete input: a body with two document links, saved over a stored
section link. -/
theorem C9_document_target_cleared_witness :
    ∃ kept stored : List Link,
      (UpdatePage extractTwoDocs noFaults ctx1 7 storeOldLink editedPage "r1" "u2" false).1.link
        = kept ++ stored ∧
      kept.Sublist storeOldLink.link ∧
      List.Forall₂
        (fun l st => st.LinkType = l.LinkType ∧
          (st.LinkType = "document" → st.TargetID = "") ∧
          (st.LinkType ≠ "document" → st.TargetID = l.TargetID))
        (extractTwoDocs editedPage.Body) stored :=
  C9_document_target_cleared extractTwoDocs noFaults ctx1 7 storeOldLink editedPage "r1" "u2"
    false (by decide)

/-! ## C10: the sequence of an added page -/

/-- The page row `AddPage` inserts. -/
theorem AddPage_ok (f : Faults) (ctx : Context) (now : Nat) (db s : Store)
    (model : PageModel) (h : (AddPage f ctx now db s model).2 = none) :
    (AddPage f ctx now db s model).1.page = s.page ++
      [{ model.Page with
          OrgID := ctx.OrgID, UserID := ctx.UserID, Created := now, Revised := now,
          Sequence := addPageSequence f ctx db model.Page }] := by
  unfold AddPage at h ⊢
  cases h1 : f.pageInsert <;> cases h2 : f.pageMetaInsert <;> cases h3 : f.searchAdd <;>
    simp [h1, h2, h3, addPageSequence] at h ⊢

theorem maxSequence_eq_none (l : List Page) : maxSequence l = none ↔ l = [] := by
  cases l with
  | nil => simp [maxSequence]
  | cons r rs =>
    simp only [maxSequence]
    cases maxSequence rs <;> simp

theorem maxSequence_eq_some (l : List Page) (m : ℚ) (h : maxSequence l = some m) :
    (∃ r ∈ l, r.Sequence = m) ∧ ∀ r ∈ l, r.Sequence ≤ m := by
  induction l generalizing m with
  | nil => simp [maxSequence] at h
  | cons r rs ih =>
    simp only [maxSequence] at h
    cases hrs : maxSequence rs with
    | none =>
      rw [hrs] at h
      have hnil := (maxSequence_eq_none rs).mp hrs
      simp only [Option.some.injEq] at h
      subst hnil
      simp [h]
    | some m0 =>
      rw [hrs] at h
      simp only [Option.some.injEq] at h
      obtain ⟨⟨r0, hr0, hr0m⟩, hle⟩ := ih m0 hrs
      subst h
      constructor
      · rcases le_total r.Sequence m0 with hc | hc
        · exact ⟨r0, List.mem_cons_of_mem _ hr0, by rw [hr0m, max_eq_right hc]⟩
        · exact ⟨r, List.mem_cons_self _ _, by rw [max_eq_left hc]⟩
      · intro x hx
        rcases List.mem_cons.mp hx with rfl | hx
        · exact le_max_left _ _
        · exact le_trans (hle x hx) (le_max_right _ _)

theorem addPageSequence_read (f : Faults) (ctx : Context) (s : Store) (page : Page) (m : ℚ)
    (hseq : page.Sequence = 0) (hf : f.maxSequenceRead = none)
    (hm : maxSequence (s.page.filter
      (fun r => r.OrgID = ctx.OrgID ∧ r.DocumentID = page.DocumentID)) = some m) :
    addPageSequence f ctx s page = m * 2 := by
  simp only [addPageSequence, scanMaxSequence, if_pos hseq, hf, hm]

/-- C10, as stated, fails, in two ways.  With the read of the maximum failing, a
page added with no explicit sequence to a document whose only page has sequence
4096 is stored, without error, with sequence 4096, not 2 × 4096.  And with no
failure at all: two pages added to an empty document inside one transaction
that has not been committed (the global handle still sees the empty document at
the second call) are both stored with sequence 4096, not 4096 and 8192. -/
theorem C10_counterexample :
    ((AddPage failMaxRead ctx1 7 storeOnePage storeOnePage newPageModel).2 = none ∧
      newPageModel.Page.Sequence = 0 ∧
      (storeOnePage.page.filter
        (fun r => r.OrgID = ctx1.OrgID ∧ r.DocumentID = newPageModel.Page.DocumentID)).map
          Page.Sequence = [4096] ∧
      (AddPage failMaxRead ctx1 7 storeOnePage storeOnePage newPageModel).1.page.map
        Page.Sequence = [4096, 4096]) ∧
    ((AddPage noFaults ctx1 7 emptyStore emptyStore newPageModel).2 = none ∧
      (AddPage noFaults ctx1 8 emptyStore
        (AddPage noFaults ctx1 7 emptyStore emptyStore newPageModel).1 thirdPageModel).2
        = none ∧
      thirdPageModel.Page.Sequence = 0 ∧
      (AddPage noFaults ctx1 8 emptyStore
        (AddPage noFaults ctx1 7 emptyStore emptyStore newPageModel).1
          thirdPageModel).1.page.map (fun r => (r.RefID, r.DocumentID, r.Sequence))
        = [("p2", "d1", 4096), ("p3", "d1", 4096)]) := by
  refine ⟨⟨by decide, by decide, by decide, ?_⟩, by decide, by decide, by decide, ?_⟩
  · rw [AddPage_ok _ _ _ _ _ _ (by decide)]
    simp [addPageSequence, scanMaxSequence, failMaxRead, noFaults, newPageModel, storeOnePage,
      storedPage]
    norm_num
  · rw [AddPage_ok _ _ _ _ _ _ (by decide), AddPage_ok _ _ _ _ _ _ (by decide)]
    simp [addPageSequence, scanMaxSequence, noFaults, newPageModel, thirdPageModel,
      emptyStore, maxSequence]
    norm_num

/-- C10, amended: for every table state `db` seen by the global handle, every
transaction state `s` and every AddPage call whose model.Page.Sequence is 0
and that returns no error, exactly one page row is appended to the
transaction's page table, for the context's organization and the model's
document.  When the read of the maximum did not fail and the global handle
sees page rows of the document in that organization, its sequence is 2 × the
maximum sequence among the rows it sees (sequence an exact rational); when it
sees no such row, or the read failed, its sequence is 4096.  Hence on a
document without pages the first such page is stored with 4096; the second is
stored with 8192 when the first was committed before the second call (the
global handle sees the state the first call left) and the read succeeds, and
with 4096 again when the global handle still sees the document without
pages. -/
theorem C10_default_sequence (f : Faults) (ctx : Context) (now : Nat) (db s : Store)
    (model : PageModel) (hseq : model.Page.Sequence = 0)
    (h : (AddPage f ctx now db s model).2 = none) :
    ∃ row : Page,
      (AddPage f ctx now db s model).1.page = s.page ++ [row] ∧
      row.RefID = model.Page.RefID ∧ row.OrgID = ctx.OrgID ∧
      row.DocumentID = model.Page.DocumentID ∧
      (f.maxSequenceRead = none →
        db.page.filter (fun r => r.OrgID = ctx.OrgID ∧ r.DocumentID = model.Page.DocumentID) ≠ [] →
        ∃ m : ℚ,
          (∃ r ∈ db.page.filter
              (fun r => r.OrgID = ctx.OrgID ∧ r.DocumentID = model.Page.DocumentID),
            r.Sequence = m) ∧
          (∀ r ∈ db.page.filter
              (fun r => r.OrgID = ctx.OrgID ∧ r.DocumentID = model.Page.DocumentID),
            r.Sequence ≤ m) ∧
          row.Sequence = 2 * m) ∧
      (f.maxSequenceRead ≠ none ∨
        db.page.filter (fun r => r.OrgID = ctx.OrgID ∧ r.DocumentID = model.Page.DocumentID) = [] →
        row.Sequence = 4096) ∧
      (db.page.filter (fun r => r.OrgID = ctx.OrgID ∧ r.DocumentID = model.Page.DocumentID) = [] →
        s.page.filter (fun r => r.OrgID = ctx.OrgID ∧ r.DocumentID = model.Page.DocumentID) = [] →
        ∀ (f2 : Faults) (now2 : Nat) (model2 : PageModel),
          model2.Page.Sequence = 0 → model2.Page.DocumentID = model.Page.DocumentID →
          ((f2.maxSequenceRead = none →
            (AddPage f2 ctx now2 (AddPage f ctx now db s model).1
              (AddPage f ctx now db s model).1 model2).2 = none →
            ∃ row2 : Page,
              (AddPage f2 ctx now2 (AddPage f ctx now db s model).1
                (AddPage f ctx now db s model).1 model2).1.page = s.page ++ [row] ++ [row2] ∧
              row.Sequence = 4096 ∧ row2.Sequence = 8192) ∧
           ((AddPage f2 ctx now2 db (AddPage f ctx now db s model).1 model2).2 = none →
            ∃ row2 : Page,
              (AddPage f2 ctx now2 db (AddPage f ctx now db s model).1 model2).1.page
                = s.page ++ [row] ++ [row2] ∧
              row.Sequence = 4096 ∧ row2.Sequence = 4096))) := by
  have hdef : ∀ (g : Faults) (pg : Page), pg.Sequence = 0 →
      (g.maxSequenceRead ≠ none ∨
        db.page.filter (fun r => r.OrgID = ctx.OrgID ∧ r.DocumentID = pg.DocumentID) = []) →
      addPageSequence g ctx db pg = 4096 := by
    intro g pg hpg hc
    unfold addPageSequence scanMaxSequence
    rw [if_pos hpg]
    cases hf : g.maxSequenceRead with
    | some e => norm_num
    | none =>
      have hnil := hc.resolve_left (by simp [hf])
      simp only [hnil, maxSequence]
      norm_num
  have hp := AddPage_ok f ctx now db s model h
  refine ⟨_, hp, rfl, rfl, rfl, ?_, hdef f model.Page hseq, ?_⟩
  · intro hf hne
    cases hm : maxSequence (db.page.filter
        (fun r => r.OrgID = ctx.OrgID ∧ r.DocumentID = model.Page.DocumentID)) with
    | none => exact absurd ((maxSequence_eq_none _).mp hm) hne
    | some m =>
      obtain ⟨hex, hle⟩ := maxSequence_eq_some _ m hm
      refine ⟨m, hex, hle, ?_⟩
      show addPageSequence f ctx db model.Page = 2 * m
      rw [addPageSequence_read f ctx db model.Page m hseq hf hm]
      ring
  · intro hnil hsnil f2 now2 model2 hseq2 hdoc
    have hrow := hdef f model.Page hseq (Or.inr hnil)
    refine ⟨?_, ?_⟩
    · intro hf2 h2
      have hp2 := AddPage_ok f2 ctx now2 _ _ model2 h2
      refine ⟨_, by rw [hp2, hp], hrow, ?_⟩
      show addPageSequence f2 ctx (AddPage f ctx now db s model).1 model2.Page = 8192
      have hm : maxSequence ((AddPage f ctx now db s model).1.page.filter
          (fun r => r.OrgID = ctx.OrgID ∧ r.DocumentID = model2.Page.DocumentID))
          = some (addPageSequence f ctx db model.Page) := by
        rw [hp, hdoc, List.filter_append, hsnil]
        simp [maxSequence]
      rw [addPageSequence_read f2 ctx _ model2.Page _ hseq2 hf2 hm, hrow]
      norm_num
    · intro h2
      have hp2 := AddPage_ok f2 ctx now2 _ _ model2 h2
      refine ⟨_, by rw [hp2, hp], hrow, ?_⟩
      show addPageSequence f2 ctx db model2.Page = 4096
      exact hdef f2 model2.Page hseq2 (Or.inr (by rw [hdoc]; exact hnil))

/-- C10, amended, at a concrete input: the first page added to the empty store is
stored with 4096 and, once it is committed, the next with 8192. -/
theorem C10_default_sequence_witness :
    ∃ row row2 : Page,
      (AddPage noFaults ctx1 7 emptyStore emptyStore newPageModel).1.page
        = emptyStore.page ++ [row] ∧
      (AddPage noFaults ctx1 8 (AddPage noFaults ctx1 7 emptyStore emptyStore newPageModel).1
        (AddPage noFaults ctx1 7 emptyStore emptyStore newPageModel).1
        { newPageModel with Page := { newPageModel.Page with RefID := "p3" } }).1.page
        = emptyStore.page ++ [row] ++ [row2] ∧
      row.RefID = "p2" ∧ row.OrgID = "o1" ∧ row.DocumentID = "d1" ∧
      row.Sequence = 4096 ∧ row2.Sequence = 8192 := by
  obtain ⟨row, h1, h2, h3, h4, _, _, hnext⟩ :=
    C10_default_sequence noFaults ctx1 7 emptyStore emptyStore newPageModel
      (by decide) (by decide)
  obtain ⟨row2, k1, k2, k3⟩ := (hnext (by decide) (by decide) noFaults 8
    { newPageModel with Page := { newPageModel.Page with RefID := "p3" } }
    (by decide) (by decide)).1 rfl (by decide)
  exact ⟨row, row2, h1, k1, h2, h3, h4, k2, k3⟩

/-! ## C11: the new page and the pages already in the document -/

theorem orderedInsert_append_last (a x : Page) (hax : a.Sequence ≤ x.Sequence) (M : List Page) :
    List.orderedInsert (fun a b : Page => a.Sequence ≤ b.Sequence) a (M ++ [x])
      = List.orderedInsert (fun a b : Page => a.Sequence ≤ b.Sequence) a M ++ [x] := by
  induction M with
  | nil => simp [List.orderedInsert, hax]
  | cons b M ih =>
    by_cases hab : a.Sequence ≤ b.Sequence
    · simp [List.orderedInsert, hab]
    · simp [List.orderedInsert, hab, ih]

theorem insertionSort_append_last (x : Page) (l : List Page)
    (h : ∀ y ∈ l, y.Sequence < x.Sequence) :
    (l ++ [x]).insertionSort (fun a b : Page => a.Sequence ≤ b.Sequence)
      = l.insertionSort (fun a b : Page => a.Sequence ≤ b.Sequence) ++ [x] := by
  induction l with
  | nil => simp
  | cons a l ih =>
    have ha : a.Sequence ≤ x.Sequence := le_of_lt (h a (List.mem_cons_self _ _))
    have hl : ∀ y ∈ l, y.Sequence < x.Sequence := fun y hy => h y (List.mem_cons_of_mem _ hy)
    have e : (a :: l ++ [x]).insertionSort (fun a b : Page => a.Sequence ≤ b.Sequence)
        = List.orderedInsert (fun a b : Page => a.Sequence ≤ b.Sequence) a
            ((l ++ [x]).insertionSort (fun a b : Page => a.Sequence ≤ b.Sequence)) := rfl
    rw [e, ih hl, orderedInsert_append_last a x ha]
    rfl

/-- The sequence of a page added with no explicit sequence to a document that has
pages, when the read of the maximum does not fail. -/
theorem addPageSequence_of_rows (f : Faults) (ctx : Context) (s : Store) (page : Page)
    (hseq : page.Sequence = 0) (hf : f.maxSequenceRead = none)
    (hne : s.page.filter (fun r => r.OrgID = ctx.OrgID ∧ r.DocumentID = page.DocumentID) ≠ []) :
    ∃ m : ℚ,
      (∃ r ∈ s.page.filter (fun r => r.OrgID = ctx.OrgID ∧ r.DocumentID = page.DocumentID),
        r.Sequence = m) ∧
      (∀ r ∈ s.page.filter (fun r => r.OrgID = ctx.OrgID ∧ r.DocumentID = page.DocumentID),
        r.Sequence ≤ m) ∧
      addPageSequence f ctx s page = 2 * m := by
  cases hm : maxSequence (s.page.filter
      (fun r => r.OrgID = ctx.OrgID ∧ r.DocumentID = page.DocumentID)) with
  | none => exact absurd ((maxSequence_eq_none _).mp hm) hne
  | some m =>
    obtain ⟨hex, hle⟩ := maxSequence_eq_some _ m hm
    refine ⟨m, hex, hle, ?_⟩
    rw [addPageSequence_read f ctx s page m hseq hf hm]
    ring

theorem UpdatePageSequence_page (ctx : Context) (s : Store) (d p : String) (q : ℚ) :
    (UpdatePageSequence noFaults ctx s d p q).1.page
      = s.page.map (fun r =>
          if r.OrgID = ctx.OrgID ∧ r.RefID = p then { r with Sequence := q } else r) := by
  simp [UpdatePageSequence, noFaults]

/-- C11, as stated, fails: from the empty store, page `p2` is added with no explicit
sequence (stored with 4096) and moved to sequence 0 by UpdatePageSequence; the
next page added with no explicit sequence, everything before it committed (the
global handle sees the same store), is stored, without error, with sequence
2 × 0 = 0, which is not different from the sequence of `p2`. -/
theorem C11_counterexample :
    (AddPage noFaults ctx1 8 storeMovedToZero storeMovedToZero thirdPageModel).2 = none ∧
    thirdPageModel.Page.Sequence = 0 ∧
    (AddPage noFaults ctx1 8 storeMovedToZero storeMovedToZero thirdPageModel).1.page.map Page.RefID
      = ["p2", "p3"] ∧
    (AddPage noFaults ctx1 8 storeMovedToZero storeMovedToZero thirdPageModel).1.page.map Page.DocumentID
      = ["d1", "d1"] ∧
    (AddPage noFaults ctx1 8 storeMovedToZero storeMovedToZero thirdPageModel).1.page.map Page.Sequence
      = [0, 0] := by
  have hp : storeMovedToZero.page
      = [{ newPageModel.Page with
            OrgID := "o1", UserID := "u1", Created := 7, Revised := 7, Sequence := 0 }] := by
    unfold storeMovedToZero
    rw [UpdatePageSequence_page, AddPage_ok _ _ _ _ _ _ (by decide)]
    simp [emptyStore, ctx1, newPageModel]
  have hok : (AddPage noFaults ctx1 8 storeMovedToZero storeMovedToZero thirdPageModel).2 = none := by
    simp [AddPage, noFaults]
  refine ⟨hok, by decide, ?_, ?_, ?_⟩
  · rw [AddPage_ok _ _ _ _ _ _ hok, hp]
    simp [thirdPageModel, newPageModel]
  · rw [AddPage_ok _ _ _ _ _ _ hok, hp]
    simp [thirdPageModel, newPageModel]
  · rw [AddPage_ok _ _ _ _ _ _ hok, hp]
    simp [addPageSequence, scanMaxSequence, noFaults, hp, thirdPageModel, newPageModel, ctx1,
      maxSequence]

/-- C11, amended: for every store state and every AddPage call with no explicit
sequence that returns no error, when the read of the maximum does not fail, the
global handle that reads the maximum sees exactly the page rows the document
has in the caller's transaction for the context's organization (none of them
is uncommitted), and the document either has no such page or has one with a
positive sequence, the sequence stored for the new page, an exact rational, is
strictly greater than (hence different from) the sequence of every page
already in that document, and GetPages, reading the state the call left (the
transaction committed) without failure, returns the new page last.  (Without a positive sequence in the document, as after
UpdatePageSequence or UpdatePage wrote a sequence ≤ 0, 2 × max is not greater
than the maximum; with uncommitted pages the maximum is taken without them;
and the float64 product of the code is +Inf for a maximum above about 9e307,
beyond which 2 × max = max.) -/
theorem C11_new_page_sorts_last (f f2 : Faults) (ctx : Context) (now : Nat) (db s : Store)
    (model : PageModel) (hseq : model.Page.Sequence = 0)
    (h : (AddPage f ctx now db s model).2 = none) (hread : f.maxSequenceRead = none)
    (hvis : db.page.filter (fun r => r.OrgID = ctx.OrgID ∧ r.DocumentID = model.Page.DocumentID)
      = s.page.filter (fun r => r.OrgID = ctx.OrgID ∧ r.DocumentID = model.Page.DocumentID))
    (hpos : s.page.filter
        (fun r => r.OrgID = ctx.OrgID ∧ r.DocumentID = model.Page.DocumentID) = [] ∨
      ∃ r ∈ s.page.filter (fun r => r.OrgID = ctx.OrgID ∧ r.DocumentID = model.Page.DocumentID),
        0 < r.Sequence)
    (hpages : f2.pagesRead = none) :
    ∃ row : Page,
      (AddPage f ctx now db s model).1.page = s.page ++ [row] ∧
      row.RefID = model.Page.RefID ∧
      (∀ r ∈ s.page.filter (fun r => r.OrgID = ctx.OrgID ∧ r.DocumentID = model.Page.DocumentID),
        r.Sequence < row.Sequence) ∧
      (GetPages f2 ctx (AddPage f ctx now db s model).1 model.Page.DocumentID).2 = none ∧
      (GetPages f2 ctx (AddPage f ctx now db s model).1 model.Page.DocumentID).1.getLast?
        = some row := by
  have hp := AddPage_ok f ctx now db s model h
  have hlt : ∀ r ∈ s.page.filter
      (fun r => r.OrgID = ctx.OrgID ∧ r.DocumentID = model.Page.DocumentID),
      r.Sequence < addPageSequence f ctx db model.Page := by
    intro r hr
    have hne : s.page.filter
        (fun r => r.OrgID = ctx.OrgID ∧ r.DocumentID = model.Page.DocumentID) ≠ [] :=
      List.ne_nil_of_mem hr
    obtain ⟨m, _, hle, hm⟩ :=
      addPageSequence_of_rows f ctx db model.Page hseq hread (by rw [hvis]; exact hne)
    rw [hvis] at hle
    obtain ⟨r0, hr0, hr0pos⟩ := hpos.resolve_left hne
    have hmpos : 0 < m := lt_of_lt_of_le hr0pos (hle r0 hr0)
    rw [hm]
    have := hle r hr
    linarith
  refine ⟨_, hp, rfl, hlt, ?_, ?_⟩
  · simp [GetPages, hpages]
  · simp only [GetPages, hpages, hp, List.filter_append]
    have hrow : List.filter
        (fun a => decide (a.OrgID = ctx.OrgID ∧ a.DocumentID = model.Page.DocumentID))
        [{ model.Page with
            OrgID := ctx.OrgID, UserID := ctx.UserID, Created := now, Revised := now,
            Sequence := addPageSequence f ctx db model.Page }]
        = [{ model.Page with
            OrgID := ctx.OrgID, UserID := ctx.UserID, Created := now, Revised := now,
            Sequence := addPageSequence f ctx db model.Page }] := by
      simp
    rw [hrow, insertionSort_append_last _ _ hlt]
    simp

/-- C11, amended, at a concrete input: page `p2` added to document `d1`, which holds
page `p1` with sequence 4096. -/
theorem C11_new_page_sorts_last_witness :
    ∃ row : Page,
      (AddPage noFaults ctx1 7 storeOnePage storeOnePage newPageModel).1.page = storeOnePage.page ++ [row] ∧
      row.RefID = newPageModel.Page.RefID ∧
      (∀ r ∈ storeOnePage.page.filter
          (fun r => r.OrgID = ctx1.OrgID ∧ r.DocumentID = newPageModel.Page.DocumentID),
        r.Sequence < row.Sequence) ∧
      (GetPages noFaults ctx1 (AddPage noFaults ctx1 7 storeOnePage storeOnePage newPageModel).1
        newPageModel.Page.DocumentID).2 = none ∧
      (GetPages noFaults ctx1 (AddPage noFaults ctx1 7 storeOnePage storeOnePage newPageModel).1
        newPageModel.Page.DocumentID).1.getLast? = some row :=
  C11_new_page_sorts_last noFaults noFaults ctx1 7 storeOnePage storeOnePage newPageModel
    (by decide) (by decide) rfl rfl
    (Or.inr ⟨storedPage, by decide, by norm_num [storedPage]⟩) rfl

/-! ## C12: the error of the maximum read -/

/-- C12: what the code does when the read of the maximum fails with error `e` (as it
does when the document has no page): GetNextPageSequence returns 4096 together
with the error `e`, not with nil; AddPage with no explicit sequence stores 4096
and does not return `e`. -/
theorem C12_failed_read (f : Faults) (ctx : Context) (now : Nat) (db s : Store)
    (model : PageModel) (e : String) (hseq : model.Page.Sequence = 0)
    (hscan : scanMaxSequence f ctx db model.Page.DocumentID = Except.error e)
    (hins : f.pageInsert = none) (hmeta : f.pageMetaInsert = none) :
    GetNextPageSequence f ctx db model.Page.DocumentID = (4096, some e) ∧
    (AddPage f ctx now db s model).2 = none ∧
    ∃ row : Page, (AddPage f ctx now db s model).1.page = s.page ++ [row] ∧ row.Sequence = 4096 := by
  have hok : (AddPage f ctx now db s model).2 = none := by
    unfold AddPage
    cases h3 : f.searchAdd <;> simp [hins, hmeta, h3]
  refine ⟨?_, hok, _, AddPage_ok f ctx now db s model hok, ?_⟩
  · simp only [GetNextPageSequence, hscan]
    norm_num
  · simp only [addPageSequence, if_pos hseq, hscan]
    norm_num

/-- C12 at a concrete input: document `d1` has no page, so the scan of the NULL maximum
fails; GetNextPageSequence returns 4096 with that error. -/
theorem C12_failed_read_witness :
    GetNextPageSequence noFaults ctx1 emptyStore newPageModel.Page.DocumentID
      = (4096, some "converting NULL to float64 is unsupported") ∧
    (AddPage noFaults ctx1 7 emptyStore emptyStore newPageModel).2 = none ∧
    ∃ row : Page,
      (AddPage noFaults ctx1 7 emptyStore emptyStore newPageModel).1.page = emptyStore.page ++ [row] ∧
      row.Sequence = 4096 :=
  C12_failed_read noFaults ctx1 7 emptyStore emptyStore newPageModel
    "converting NULL to float64 is unsupported" (by decide) rfl rfl rfl

/-! ## C13, C14: DeletePage -/

theorem not_of_mem_filter_not {α : Type} (p : α → Prop) [DecidablePred p] (l : List α) (x : α)
    (h : x ∈ l.filter (fun a => !decide (p a))) : ¬ p x := by
  simpa using (List.mem_filter.mp h).2

/-- The store a `DeletePage` in which no step fails leaves, for plain values. -/
theorem DeletePage_noFail (P : Link → String → Bool) (f : Faults) (ctx : Context) (s : Store)
    (documentID pageID : String)
    (hp1 : plainLiteral ctx.OrgID = true) (hp2 : plainLiteral pageID = true)
    (h1 : f.pageDelete = none) (h2 : f.pageMetaDelete = none) (h3 : f.searchDelete = none)
    (h4 : f.deleteSourcePageLinks = none) (h5 : f.markOrphanPageLink = none)
    (h6 : f.deletePageRevisions = none) :
    DeletePage P f ctx s documentID pageID =
      { store :=
          { page := s.page.filter (fun r => !decide (r.OrgID = ctx.OrgID ∧ r.RefID = pageID)),
            pagemeta := s.pagemeta.filter
              (fun m => !decide (m.OrgID = ctx.OrgID ∧ m.PageID = pageID)),
            revision := s.revision.filter
              (fun r => !decide (r.OrgID = ctx.OrgID ∧ r.PageID = pageID)),
            link := (s.link.filter
              (fun l => !decide (l.OrgID = ctx.OrgID ∧ l.SourcePageID = pageID))).map
                (fun l => if l.OrgID = ctx.OrgID ∧ P l pageID = true
                  then { l with Orphan := true } else l),
            search := s.search ++ [SearchEvent.Delete ctx.OrgID documentID pageID] },
        rows := (s.page.filter (fun r => r.OrgID = ctx.OrgID ∧ r.RefID = pageID)).length,
        err := none,
        calls := allDeleteCalls } := by
  simp [DeletePage, attempt, DeleteConstrainedPage, deletePageMeta, searchesDelete,
    DeleteSourcePageLinks, MarkOrphanPageLink, DeletePageRevisions, allDeleteCalls,
    h1, h2, h3, h4, h5, h6, hp1, hp2]

/-- C13, as stated, fails on the order: page `p1`, which has a link to `t0` and is the
target of a section link of `p2`, is deleted and no step fails; the rows, links
and revisions of `p1` are gone and the link of `p2` is marked orphan, but the
calls were made in the order of the source, the orphan marking before the
purge of the revisions, not the purge of the revisions before the orphan
marking. -/
theorem C13_counterexample :
    (DeletePage targetIs noFaults ctx1 storeLinked "d1" "p1").err = none ∧
    (DeletePage targetIs noFaults ctx1 storeLinked "d1" "p1").store.link
      = [{ linkOfP1 "p1" "section" true with SourcePageID := "p2" }] ∧
    (DeletePage targetIs noFaults ctx1 storeLinked "d1" "p1").store.revision.map Revision.PageID
      = ["p2"] ∧
    (DeletePage targetIs noFaults ctx1 storeLinked "d1" "p1").calls
      = [DeleteCall.DeleteConstrainedPage, DeleteCall.DeleteWherePageMeta,
          DeleteCall.SearchesDelete, DeleteCall.DeleteSourcePageLinks,
          DeleteCall.MarkOrphanPageLink, DeleteCall.DeletePageRevisions] ∧
    (DeletePage targetIs noFaults ctx1 storeLinked "d1" "p1").calls
      ≠ [DeleteCall.DeleteConstrainedPage, DeleteCall.DeleteWherePageMeta,
          DeleteCall.SearchesDelete, DeleteCall.DeleteSourcePageLinks,
          DeleteCall.DeletePageRevisions, DeleteCall.MarkOrphanPageLink] := by
  decide

/-- C13, amended: for every store state and every DeletePage(documentID, pageID) call
in which no step fails, Context.OrgID and pageID holding neither a quote nor a
backslash (the pagemeta and revision statements paste them between quotes),
afterwards the store holds, for the context's organization, no page row with
refid = pageID, no pagemeta row with pageid = pageID, no content link whose
source page is pageID and no revision row with pageid = pageID; the search
index has received the delete of (documentID, pageID); every content link of
the organization, of another page, that points at pageID, whatever its type,
is still stored, marked orphan = true; the calls are made in the order page
row, pagemeta, search index, source links, orphan marking, revisions. -/
theorem C13_delete_page (P : Link → String → Bool) (f : Faults) (ctx : Context) (s : Store)
    (documentID pageID : String)
    (hp1 : plainLiteral ctx.OrgID = true) (hp2 : plainLiteral pageID = true)
    (h1 : f.pageDelete = none) (h2 : f.pageMetaDelete = none) (h3 : f.searchDelete = none)
    (h4 : f.deleteSourcePageLinks = none) (h5 : f.markOrphanPageLink = none)
    (h6 : f.deletePageRevisions = none) :
    (DeletePage P f ctx s documentID pageID).err = none ∧
    (∀ r ∈ (DeletePage P f ctx s documentID pageID).store.page,
      ¬ (r.OrgID = ctx.OrgID ∧ r.RefID = pageID)) ∧
    (∀ m ∈ (DeletePage P f ctx s documentID pageID).store.pagemeta,
      ¬ (m.OrgID = ctx.OrgID ∧ m.PageID = pageID)) ∧
    (DeletePage P f ctx s documentID pageID).store.search
      = s.search ++ [SearchEvent.Delete ctx.OrgID documentID pageID] ∧
    (∀ l ∈ (DeletePage P f ctx s documentID pageID).store.link,
      ¬ (l.OrgID = ctx.OrgID ∧ l.SourcePageID = pageID)) ∧
    (∀ v ∈ (DeletePage P f ctx s documentID pageID).store.revision,
      ¬ (v.OrgID = ctx.OrgID ∧ v.PageID = pageID)) ∧
    (∀ l ∈ s.link, l.OrgID = ctx.OrgID → l.SourcePageID ≠ pageID → P l pageID = true →
      { l with Orphan := true } ∈ (DeletePage P f ctx s documentID pageID).store.link) ∧
    (DeletePage P f ctx s documentID pageID).calls
      = [DeleteCall.DeleteConstrainedPage, DeleteCall.DeleteWherePageMeta,
          DeleteCall.SearchesDelete, DeleteCall.DeleteSourcePageLinks,
          DeleteCall.MarkOrphanPageLink, DeleteCall.DeletePageRevisions] := by
  rw [DeletePage_noFail P f ctx s documentID pageID hp1 hp2 h1 h2 h3 h4 h5 h6]
  refine ⟨rfl, ?_, ?_, rfl, ?_, ?_, ?_, rfl⟩
  · intro r hr
    exact not_of_mem_filter_not (fun r : Page => r.OrgID = ctx.OrgID ∧ r.RefID = pageID) _ r hr
  · intro m hm
    exact not_of_mem_filter_not (fun m : PageMeta => m.OrgID = ctx.OrgID ∧ m.PageID = pageID)
      _ m hm
  · intro l hl
    obtain ⟨x, hx, rfl⟩ := List.mem_map.mp hl
    have hx2 := not_of_mem_filter_not
      (fun l : Link => l.OrgID = ctx.OrgID ∧ l.SourcePageID = pageID) _ x hx
    by_cases hc : x.OrgID = ctx.OrgID ∧ P x pageID = true
    · simpa only [hc, and_self, if_true] using hx2
    · simpa only [hc, if_false] using hx2
  · intro v hv
    exact not_of_mem_filter_not (fun v : Revision => v.OrgID = ctx.OrgID ∧ v.PageID = pageID)
      _ v hv
  · intro l hl ho hs hP
    refine List.mem_map.mpr ⟨l, List.mem_filter.mpr ⟨hl, ?_⟩, ?_⟩
    · simp [hs]
    · simp [ho, hP]

/-- C13, amended, at a concrete input: page `p1`, which has a link to `t0` and is the
target of a section link of `p2`, is deleted; the link of `p2` is marked. -/
theorem C13_delete_page_witness :
    (DeletePage targetIs noFaults ctx1 storeLinked "d1" "p1").err = none ∧
    (∀ r ∈ (DeletePage targetIs noFaults ctx1 storeLinked "d1" "p1").store.page,
      ¬ (r.OrgID = ctx1.OrgID ∧ r.RefID = "p1")) ∧
    (∀ m ∈ (DeletePage targetIs noFaults ctx1 storeLinked "d1" "p1").store.pagemeta,
      ¬ (m.OrgID = ctx1.OrgID ∧ m.PageID = "p1")) ∧
    (DeletePage targetIs noFaults ctx1 storeLinked "d1" "p1").store.search
      = storeLinked.search ++ [SearchEvent.Delete ctx1.OrgID "d1" "p1"] ∧
    (∀ l ∈ (DeletePage targetIs noFaults ctx1 storeLinked "d1" "p1").store.link,
      ¬ (l.OrgID = ctx1.OrgID ∧ l.SourcePageID = "p1")) ∧
    (∀ v ∈ (DeletePage targetIs noFaults ctx1 storeLinked "d1" "p1").store.revision,
      ¬ (v.OrgID = ctx1.OrgID ∧ v.PageID = "p1")) ∧
    (∀ l ∈ storeLinked.link, l.OrgID = ctx1.OrgID → l.SourcePageID ≠ "p1" →
      targetIs l "p1" = true →
      { l with Orphan := true }
        ∈ (DeletePage targetIs noFaults ctx1 storeLinked "d1" "p1").store.link) ∧
    (DeletePage targetIs noFaults ctx1 storeLinked "d1" "p1").calls
      = [DeleteCall.DeleteConstrainedPage, DeleteCall.DeleteWherePageMeta,
          DeleteCall.SearchesDelete, DeleteCall.DeleteSourcePageLinks,
          DeleteCall.MarkOrphanPageLink, DeleteCall.DeletePageRevisions] :=
  C13_delete_page targetIs noFaults ctx1 storeLinked "d1" "p1" (by decide) (by decide)
    rfl rfl rfl rfl rfl rfl

/-- C14: DeletePage returns exactly the (rows, err) pair of the constrained delete of
the page row.  When that delete returned an error none of the five cleanup
calls is made and the store is the one that delete left.  When it returned no
error the five cleanup calls (pagemeta, search index, source links, orphan
marking, revisions) are all made, in that order, each on the store the
earlier ones left whatever they returned: for Context.OrgID and pageID holding
neither a quote nor a backslash, every table ends as its own step alone makes
it of the table before the call, whichever of the other steps failed.  Whether
a cleanup step fails changes neither the calls made nor the pair returned. -/
theorem C14_best_effort_cleanup (P : Link → String → Bool) (f : Faults) (ctx : Context)
    (s : Store) (documentID pageID : String) :
    ((DeletePage P f ctx s documentID pageID).rows, (DeletePage P f ctx s documentID pageID).err)
      = (DeleteConstrainedPage f ctx s pageID).2 ∧
    ((DeleteConstrainedPage f ctx s pageID).2.2 = none →
      (DeletePage P f ctx s documentID pageID).calls
        = [DeleteCall.DeleteConstrainedPage, DeleteCall.DeleteWherePageMeta,
            DeleteCall.SearchesDelete, DeleteCall.DeleteSourcePageLinks,
            DeleteCall.MarkOrphanPageLink, DeleteCall.DeletePageRevisions]) ∧
    ((DeleteConstrainedPage f ctx s pageID).2.2 ≠ none →
      (DeletePage P f ctx s documentID pageID).calls = [DeleteCall.DeleteConstrainedPage] ∧
      (DeletePage P f ctx s documentID pageID).store = (DeleteConstrainedPage f ctx s pageID).1) ∧
    (∀ f2 : Faults, f2.pageDelete = f.pageDelete →
      (DeletePage P f2 ctx s documentID pageID).rows
        = (DeletePage P f ctx s documentID pageID).rows ∧
      (DeletePage P f2 ctx s documentID pageID).err
        = (DeletePage P f ctx s documentID pageID).err ∧
      (DeletePage P f2 ctx s documentID pageID).calls
        = (DeletePage P f ctx s documentID pageID).calls) ∧
    ((DeleteConstrainedPage f ctx s pageID).2.2 = none →
      plainLiteral ctx.OrgID = true → plainLiteral pageID = true →
      (DeletePage P f ctx s documentID pageID).store.page
        = (DeleteConstrainedPage f ctx s pageID).1.page ∧
      (DeletePage P f ctx s documentID pageID).store.pagemeta
        = (deletePageMeta f ctx s pageID).1.pagemeta ∧
      (DeletePage P f ctx s documentID pageID).store.search
        = (searchesDelete f ctx s documentID pageID).1.search ∧
      (DeletePage P f ctx s documentID pageID).store.link
        = (MarkOrphanPageLink P f ctx (DeleteSourcePageLinks f ctx s pageID).1 pageID).1.link ∧
      (DeletePage P f ctx s documentID pageID).store.revision
        = (DeletePageRevisions f ctx s pageID).1.revision) := by
  refine ⟨?_, ?_, ?_, ?_, ?_⟩
  · cases h : f.pageDelete <;> simp [DeletePage, attempt, DeleteConstrainedPage, h]
  · cases h : f.pageDelete <;> simp [DeletePage, attempt, DeleteConstrainedPage, h]
  · cases h : f.pageDelete <;> simp [DeletePage, attempt, DeleteConstrainedPage, h]
  · intro f2 h2
    cases h : f.pageDelete <;> simp [DeletePage, attempt, DeleteConstrainedPage, h, h2]
  · intro h1 hp1 hp2
    have h1' : f.pageDelete = none := by
      cases h : f.pageDelete
      · rfl
      · simp [DeleteConstrainedPage, h] at h1
    cases h2 : f.pageMetaDelete <;> cases h3 : f.searchDelete <;>
      cases h4 : f.deleteSourcePageLinks <;> cases h5 : f.markOrphanPageLink <;>
      cases h6 : f.deletePageRevisions <;>
      simp [DeletePage, attempt, DeleteConstrainedPage, deletePageMeta, searchesDelete,
        DeleteSourcePageLinks, MarkOrphanPageLink, DeletePageRevisions,
        h1', h2, h3, h4, h5, h6, hp1, hp2]

/-- C14 at a concrete input: with every cleanup step failing, DeletePage makes the same
six calls and returns the same one deleted row and no error as without any
failure; with the pagemeta delete and the search-index delete failing, the
three later steps have still taken effect: the link of `p1` is deleted, the
link of `p2` to `p1` is marked orphan and the revision of `p1` is purged. -/
theorem C14_best_effort_cleanup_witness :
    ((DeletePage targetIs failCleanup ctx1 storeLinked "d1" "p1").rows
        = (DeletePage targetIs noFaults ctx1 storeLinked "d1" "p1").rows ∧
      (DeletePage targetIs failCleanup ctx1 storeLinked "d1" "p1").err
        = (DeletePage targetIs noFaults ctx1 storeLinked "d1" "p1").err ∧
      (DeletePage targetIs failCleanup ctx1 storeLinked "d1" "p1").calls
        = (DeletePage targetIs noFaults ctx1 storeLinked "d1" "p1").calls) ∧
    ((DeletePage targetIs failEarlyCleanup ctx1 storeLinked "d1" "p1").store.page
        = (DeleteConstrainedPage failEarlyCleanup ctx1 storeLinked "p1").1.page ∧
      (DeletePage targetIs failEarlyCleanup ctx1 storeLinked "d1" "p1").store.pagemeta
        = (deletePageMeta failEarlyCleanup ctx1 storeLinked "p1").1.pagemeta ∧
      (DeletePage targetIs failEarlyCleanup ctx1 storeLinked "d1" "p1").store.search
        = (searchesDelete failEarlyCleanup ctx1 storeLinked "d1" "p1").1.search ∧
      (DeletePage targetIs failEarlyCleanup ctx1 storeLinked "d1" "p1").store.link
        = (MarkOrphanPageLink targetIs failEarlyCleanup ctx1
            (DeleteSourcePageLinks failEarlyCleanup ctx1 storeLinked "p1").1 "p1").1.link ∧
      (DeletePage targetIs failEarlyCleanup ctx1 storeLinked "d1" "p1").store.revision
        = (DeletePageRevisions failEarlyCleanup ctx1 storeLinked "p1").1.revision) ∧
    (deletePageMeta failEarlyCleanup ctx1 storeLinked "p1").2 = some "meta" ∧
    (DeletePage targetIs failEarlyCleanup ctx1 storeLinked "d1" "p1").store.pagemeta
      = storeLinked.pagemeta ∧
    (DeletePage targetIs failEarlyCleanup ctx1 storeLinked "d1" "p1").store.link
      = [{ linkOfP1 "p1" "section" true with SourcePageID := "p2" }] ∧
    storeLinked.revision.map Revision.PageID = ["p1", "p2"] ∧
    (DeletePage targetIs failEarlyCleanup ctx1 storeLinked "d1" "p1").store.revision.map
      Revision.PageID = ["p2"] :=
  ⟨(C14_best_effort_cleanup targetIs noFaults ctx1 storeLinked "d1" "p1").2.2.2.1
      failCleanup rfl,
    (C14_best_effort_cleanup targetIs failEarlyCleanup ctx1 storeLinked "d1" "p1").2.2.2.2
      rfl (by decide) (by decide),
    by decide, by decide, by decide, by decide, by decide⟩

/-! ## C15: the single-field updates -/

/-- C15: a call of UpdatePageLevel that returns no error has written the level in every
page row keyed by (Context.OrgID, pageID), changed no other field of it and no
other row or table, and the search index has received exactly one more
notification, UpdateLevel with the context's organization, documentID, pageID
and that level; when the UPDATE fails the call returns its error, the store is
as before and the index has received nothing.  The same holds for
UpdatePageSequence with the sequence and the UpdateSequence notification.  Each
of the two calls returns no error whenever neither its UPDATE nor its
notification fails. -/
theorem C15_single_field_updates (f : Faults) (ctx : Context) (s : Store)
    (documentID pageID : String) (level : Int) (sequence : ℚ) :
    ((UpdatePageLevel f ctx s documentID pageID level).2 = none →
      (UpdatePageLevel f ctx s documentID pageID level).1.search
        = s.search ++ [SearchEvent.UpdateLevel ctx.OrgID documentID pageID level] ∧
      List.Forall₂
        (fun r r' => if r.OrgID = ctx.OrgID ∧ r.RefID = pageID
          then r' = { r with Level := level } else r' = r)
        s.page (UpdatePageLevel f ctx s documentID pageID level).1.page ∧
      (UpdatePageLevel f ctx s documentID pageID level).1.pagemeta = s.pagemeta ∧
      (UpdatePageLevel f ctx s documentID pageID level).1.revision = s.revision ∧
      (UpdatePageLevel f ctx s documentID pageID level).1.link = s.link) ∧
    (∀ e, f.levelUpdate = some e →
      UpdatePageLevel f ctx s documentID pageID level = (s, some e)) ∧
    ((UpdatePageSequence f ctx s documentID pageID sequence).2 = none →
      (UpdatePageSequence f ctx s documentID pageID sequence).1.search
        = s.search ++ [SearchEvent.UpdateSequence ctx.OrgID documentID pageID sequence] ∧
      List.Forall₂
        (fun r r' => if r.OrgID = ctx.OrgID ∧ r.RefID = pageID
          then r' = { r with Sequence := sequence } else r' = r)
        s.page (UpdatePageSequence f ctx s documentID pageID sequence).1.page ∧
      (UpdatePageSequence f ctx s documentID pageID sequence).1.pagemeta = s.pagemeta ∧
      (UpdatePageSequence f ctx s documentID pageID sequence).1.revision = s.revision ∧
      (UpdatePageSequence f ctx s documentID pageID sequence).1.link = s.link) ∧
    (∀ e, f.sequenceUpdate = some e →
      UpdatePageSequence f ctx s documentID pageID sequence = (s, some e)) ∧
    (f.levelUpdate = none → f.searchUpdateLevel = none →
      (UpdatePageLevel f ctx s documentID pageID level).2 = none) ∧
    (f.sequenceUpdate = none → f.searchUpdateSequence = none →
      (UpdatePageSequence f ctx s documentID pageID sequence).2 = none) := by
  refine ⟨?_, ?_, ?_, ?_, ?_, ?_⟩
  · intro h
    cases h1 : f.levelUpdate <;> cases h2 : f.searchUpdateLevel <;>
      simp [UpdatePageLevel, h1, h2] at h ⊢
    intro r _
    by_cases hc : r.OrgID = ctx.OrgID ∧ r.RefID = pageID
    · simp [hc]
    · simp only [hc, if_false]
      intro h1 h2
      exact absurd ⟨h1, h2⟩ hc
  · intro e he
    simp [UpdatePageLevel, he]
  · intro h
    cases h1 : f.sequenceUpdate <;> cases h2 : f.searchUpdateSequence <;>
      simp [UpdatePageSequence, h1, h2] at h ⊢
    intro r _
    by_cases hc : r.OrgID = ctx.OrgID ∧ r.RefID = pageID
    · simp [hc]
    · simp only [hc, if_false]
      intro h1 h2
      exact absurd ⟨h1, h2⟩ hc
  · intro e he
    simp [UpdatePageSequence, he]
  · intro h1 h2
    simp [UpdatePageLevel, h1, h2]
  · intro h1 h2
    simp [UpdatePageSequence, h1, h2]

/-- C15 at a concrete input: page `p2`, stored with sequence 8192 and level 1, is given
level 2; the row shows level 2 and the index has received UpdateLevel with level
2.  When the UPDATE fails nothing changes.  The same page is given sequence
512; the row shows sequence 512 and the index has received UpdateSequence with
512.  When that UPDATE fails nothing changes. -/
theorem C15_single_field_updates_witness :
    ((UpdatePageLevel noFaults ctx1 storeTwoPages "d1" "p2" 2).2 = none ∧
      (UpdatePageLevel noFaults ctx1 storeTwoPages "d1" "p2" 2).1.search
        = storeTwoPages.search ++ [SearchEvent.UpdateLevel "o1" "d1" "p2" 2] ∧
      List.Forall₂
        (fun r r' => if r.OrgID = ctx1.OrgID ∧ r.RefID = "p2"
          then r' = { r with Level := 2 } else r' = r)
        storeTwoPages.page (UpdatePageLevel noFaults ctx1 storeTwoPages "d1" "p2" 2).1.page ∧
      UpdatePageLevel failLevelUpdate ctx1 storeTwoPages "d1" "p2" 2
        = (storeTwoPages, some "update failed")) ∧
    ((UpdatePageSequence noFaults ctx1 storeTwoPages "d1" "p2" 512).2 = none ∧
      (UpdatePageSequence noFaults ctx1 storeTwoPages "d1" "p2" 512).1.search
        = storeTwoPages.search ++ [SearchEvent.UpdateSequence "o1" "d1" "p2" 512] ∧
      List.Forall₂
        (fun r r' => if r.OrgID = ctx1.OrgID ∧ r.RefID = "p2"
          then r' = { r with Sequence := 512 } else r' = r)
        storeTwoPages.page
        (UpdatePageSequence noFaults ctx1 storeTwoPages "d1" "p2" 512).1.page ∧
      (UpdatePageSequence noFaults ctx1 storeTwoPages "d1" "p2" 512).1.page
        = [storedPage, { secondPage with Sequence := 512 }] ∧
      UpdatePageSequence failSequenceUpdate ctx1 storeTwoPages "d1" "p2" 512
        = (storeTwoPages, some "update failed")) :=
  have h := C15_single_field_updates noFaults ctx1 storeTwoPages "d1" "p2" 2 512
  have hok : (UpdatePageLevel noFaults ctx1 storeTwoPages "d1" "p2" 2).2 = none :=
    h.2.2.2.2.1 rfl rfl
  have hok2 : (UpdatePageSequence noFaults ctx1 storeTwoPages "d1" "p2" 512).2 = none :=
    h.2.2.2.2.2 rfl rfl
  ⟨⟨hok, (h.1 hok).1, (h.1 hok).2.1, by decide⟩,
    ⟨hok2, (h.2.2.1 hok2).1, (h.2.2.1 hok2).2.1,
      by simp [UpdatePageSequence, noFaults, storeTwoPages, storedPage, secondPage, ctx1],
      (C15_single_field_updates failSequenceUpdate ctx1 storeTwoPages "d1" "p2" 2 512).2.2.2.1
        "update failed" rfl⟩⟩

/-! ## C16: the organization of the rows an update touches -/

/-- C16, at the failing input: the context is organization `o1`, which owns no row; the
store holds page `p1` of organization `o2` with its meta row.  UpdatePage with
page.RefID = p1 returns no error and inserts a revision row of organization `o2`
copied from the title and body of the page of `o2` (the SELECT of the revision
INSERT has no orgid condition); on the store without the rows of `o2`, which
agrees with it on every row of `o1`, the same call inserts nothing.  When the
page argument carries OrgID = o2, the page UPDATE (`WHERE orgid=:orgid`, taken
from the argument) rewrites the row of `o2`. -/
theorem C16_revision_copied_across_organizations :
    (∀ r ∈ storeForeign.page, r.OrgID ≠ ctx1.OrgID) ∧
    (∀ m ∈ storeForeign.pagemeta, m.OrgID ≠ ctx1.OrgID) ∧
    (UpdatePage extractNone noFaults ctx1 7 storeForeign editedPage "r1" "u1" false).2 = none ∧
    (UpdatePage extractNone noFaults ctx1 7 storeForeign editedPage "r1" "u1" false).1.revision
      = [{ RefID := "r1", OrgID := "o2", DocumentID := "d1", OwnerID := "u0", PageID := "p1",
           UserID := "u1", ContentType := "wysiwyg", PageType := "section",
           Title := "Title of o2", Body := "body of o2", RawBody := "raw of o2",
           Config := "cfg", Created := 7, Revised := 7 }] ∧
    (UpdatePage extractNone noFaults ctx1 7 emptyStore editedPage "r1" "u1" false).1.revision
      = [] ∧
    (UpdatePage extractNone noFaults ctx1 7 storeForeign { editedPage with OrgID := "o2" }
      "r1" "u1" true).2 = none ∧
    (UpdatePage extractNone noFaults ctx1 7 storeForeign { editedPage with OrgID := "o2" }
      "r1" "u1" true).1.page.map Page.Title = ["New title"] := by
  decide

/-! ## C17: the revision lists -/

theorem leftJoin_of_length_le_one {β : Type} (l : List β) (h : l.length ≤ 1) :
    leftJoin l = [l.head?] := by
  match l, h with
  | [], _ => rfl
  | [b], _ => rfl
  | _ :: _ :: _, h => simp at h

theorem dbSelect_normalized {β : Type} (e : Bool) (rows : List β) :
    (if ((dbSelect e rows).getD []).length = 0 then some [] else dbSelect e rows) = some rows := by
  cases rows <;> cases e <;> simp [dbSelect]

theorem dbSelect_getD {β : Type} (e : Bool) (rows : List β) :
    (dbSelect e rows).getD [] = rows := by
  cases rows <;> cases e <;> simp [dbSelect]

theorem documentViews_rows (users : List User) (pages : List Page) (L : List Revision)
    (hu : ∀ a ∈ L, (users.filter (fun b => a.UserID = b.RefID)).length ≤ 1)
    (hp : ∀ a ∈ L, (pages.filter (fun p => a.PageID = p.RefID)).length ≤ 1) :
    (L.flatMap (fun a => (leftJoin (users.filter (fun b => a.UserID = b.RefID))).flatMap
      (fun b => (leftJoin (pages.filter (fun p => a.PageID = p.RefID))).map
        (fun p => revisionView a b p)))).map RevisionView.Row
      = L.map selectedColumns := by
  induction L with
  | nil => rfl
  | cons a L ih =>
    have hu1 := leftJoin_of_length_le_one _ (hu a (List.mem_cons_self _ _))
    have hp1 := leftJoin_of_length_le_one _ (hp a (List.mem_cons_self _ _))
    have ih1 := ih (fun x hx => hu x (List.mem_cons_of_mem _ hx))
      (fun x hx => hp x (List.mem_cons_of_mem _ hx))
    rw [List.flatMap_cons, List.map_append, ih1, hu1, hp1]
    rfl

theorem pageViews_rows (users : List User) (L : List Revision)
    (hu : ∀ a ∈ L, (users.filter (fun b => a.UserID = b.RefID)).length ≤ 1) :
    (L.flatMap (fun a => (leftJoin (users.filter (fun b => a.UserID = b.RefID))).map
      (fun b => revisionView a b none))).map RevisionView.Row
      = L.map selectedColumns := by
  induction L with
  | nil => rfl
  | cons a L ih =>
    have hu1 := leftJoin_of_length_le_one _ (hu a (List.mem_cons_self _ _))
    have ih1 := ih (fun x hx => hu x (List.mem_cons_of_mem _ hx))
    rw [List.flatMap_cons, List.map_append, ih1, hu1]
    rfl

/-- C17: on every store of the data model, in which a reference id names one user row
and one page row (every revision row joins at most one of each), when the read
does not fail GetDocumentRevisions returns no error and a non-nil list, and
that list is, row for row, the revision rows of Context.OrgID for that
document whose pagetype is "section" (their selected columns), in the reverse
of the insertion order, that is strictly descending by id; GetPageRevisions
returns in the same way the rows of that page.  Both are reads: they return no
store. -/
theorem C17_revision_lists (emptyIsNil : Bool) (f : Faults) (ctx : Context)
    (users : List User) (s : Store) (documentID pageID : String)
    (hread : f.revisionsRead = none)
    (hu : ∀ a ∈ s.revision, (users.filter (fun b => a.UserID = b.RefID)).length ≤ 1)
    (hp : ∀ a ∈ s.revision, (s.page.filter (fun p => a.PageID = p.RefID)).length ≤ 1) :
    (GetDocumentRevisions emptyIsNil f ctx users s documentID).2 = none ∧
    (∃ l : List RevisionView,
      (GetDocumentRevisions emptyIsNil f ctx users s documentID).1 = some l ∧
      l.map RevisionView.Row
        = ((s.revision.filter (fun a =>
            a.OrgID = ctx.OrgID ∧ a.DocumentID = documentID ∧ a.PageType = "section")).reverse).map
              selectedColumns) ∧
    (GetPageRevisions emptyIsNil f ctx users s pageID).2 = none ∧
    ((GetPageRevisions emptyIsNil f ctx users s pageID).1.getD []).map RevisionView.Row
      = ((s.revision.filter (fun a =>
          a.OrgID = ctx.OrgID ∧ a.PageID = pageID ∧ a.PageType = "section")).reverse).map
            selectedColumns := by
  have hsub : ∀ (q : Revision → Bool), ∀ a ∈ (s.revision.filter q).reverse, a ∈ s.revision := by
    intro q a ha
    exact (List.mem_filter.mp (List.mem_reverse.mp ha)).1
  refine ⟨by simp [GetDocumentRevisions, hread], ?_, by simp [GetPageRevisions, hread], ?_⟩
  · refine ⟨_, ?_, documentViews_rows users s.page _
      (fun a ha => hu a (hsub _ a ha)) (fun a ha => hp a (hsub _ a ha))⟩
    simp only [GetDocumentRevisions, hread]
    exact dbSelect_normalized emptyIsNil _
  · simp only [GetPageRevisions, hread, dbSelect_getD]
    exact pageViews_rows users _ (fun a ha => hu a (hsub _ a ha))

/-- C17 at a concrete input: pages `p1` and `p2` with one revision each. -/
theorem C17_revision_lists_witness :
    (GetDocumentRevisions true noFaults ctx1 usersOne storeTwoPages "d1").2 = none ∧
    (∃ l : List RevisionView,
      (GetDocumentRevisions true noFaults ctx1 usersOne storeTwoPages "d1").1 = some l ∧
      l.map RevisionView.Row
        = ((storeTwoPages.revision.filter (fun a =>
            a.OrgID = ctx1.OrgID ∧ a.DocumentID = "d1" ∧ a.PageType = "section")).reverse).map
              selectedColumns) ∧
    (GetPageRevisions true noFaults ctx1 usersOne storeTwoPages "p1").2 = none ∧
    ((GetPageRevisions true noFaults ctx1 usersOne storeTwoPages "p1").1.getD []).map
        RevisionView.Row
      = ((storeTwoPages.revision.filter (fun a =>
          a.OrgID = ctx1.OrgID ∧ a.PageID = "p1" ∧ a.PageType = "section")).reverse).map
            selectedColumns :=
  C17_revision_lists true noFaults ctx1 usersOne storeTwoPages "d1" "p1" rfl
    (by decide) (by decide)

/-! ## C18: StripAuthSecrets -/

/-- C18, where the code departs from it and from its own doc comment ("removes
sensitive data"): the configuration text holds the admin password `s3cret` and
gives a string for the boolean `disableLogout`, so `json.Unmarshal` returns a
type error; StripAuthSecrets("keycloak", text) returns the text unchanged,
admin password included. -/
theorem C18_unparsed_config_keeps_secrets :
    StripAuthSecrets jsonUnmarshalTable jsonMarshalTable "keycloak" mistypedConfigText
      = "\x7b\"adminPassword\":\"" ++ "s3cret" ++ "\",\"disableLogout\":\"yes\"\x7d" := by
  rfl

/-- What `StripAuthSecrets` does on every path: when config parses as a Keycloak
configuration `c` (and the re-encoding succeeds), the result for "keycloak" is
the encoding of `c` with adminUser, adminPassword and publicKey empty: decoded
again it gives these three fields empty and url, realm, clientId, group,
disableLogout and defaultPermissionAddSpace as in `c`.  When config does not
parse, it is returned unchanged, whatever it holds; for provider "documize",
and for every provider other than "keycloak", the configuration is returned
unchanged. -/
theorem StripAuthSecrets_paths (unmarshal : String → Except String keycloakConfig)
    (marshal : keycloakConfig → Except String String) (config : String) (c : keycloakConfig)
    (j : String) (hparse : unmarshal config = Except.ok c)
    (hmarshal : marshal { c with AdminPassword := "", AdminUser := "", PublicKey := "" }
      = Except.ok j)
    (hround : ∀ c2 j2, marshal c2 = Except.ok j2 → unmarshal j2 = Except.ok c2) :
    StripAuthSecrets unmarshal marshal "keycloak" config = j ∧
    (∃ c2 : keycloakConfig,
      unmarshal (StripAuthSecrets unmarshal marshal "keycloak" config) = Except.ok c2 ∧
      c2.AdminUser = "" ∧ c2.AdminPassword = "" ∧ c2.PublicKey = "" ∧
      c2.URL = c.URL ∧ c2.Realm = c.Realm ∧ c2.ClientID = c.ClientID ∧ c2.Group = c.Group ∧
      c2.DisableLogout = c.DisableLogout ∧
      c2.DefaultPermissionAddSpace = c.DefaultPermissionAddSpace) ∧
    StripAuthSecrets unmarshal marshal "documize" config = config ∧
    (∀ config2 e, unmarshal config2 = Except.error e →
      StripAuthSecrets unmarshal marshal "keycloak" config2 = config2) ∧
    (∀ provider config2, provider ≠ "keycloak" →
      StripAuthSecrets unmarshal marshal provider config2 = config2) := by
  have hres : StripAuthSecrets unmarshal marshal "keycloak" config = j := by
    simp [StripAuthSecrets, hparse, hmarshal]
  refine ⟨hres, ?_, by simp [StripAuthSecrets], ?_, ?_⟩
  · refine ⟨{ c with AdminPassword := "", AdminUser := "", PublicKey := "" }, ?_,
      rfl, rfl, rfl, rfl, rfl, rfl, rfl, rfl, rfl⟩
    rw [hres]
    exact hround _ _ hmarshal
  · intro config2 e he
    simp [StripAuthSecrets, he]
  · intro provider config2 hne
    simp [StripAuthSecrets, hne]

set_option maxRecDepth 100000 in
theorem jsonTables_round_trip (c2 : keycloakConfig) (j2 : String)
    (h : jsonMarshalTable c2 = Except.ok j2) : jsonUnmarshalTable j2 = Except.ok c2 := by
  unfold jsonMarshalTable at h
  by_cases h1 : c2 = fullConfig
  · simp only [h1, if_true, Except.ok.injEq] at h
    subst h
    subst h1
    rfl
  · by_cases h2 : c2 = strippedConfig
    · simp only [h1, h2, if_true, if_false, Except.ok.injEq] at h
      rw [if_neg (by decide)] at h
      simp only [if_true, Except.ok.injEq] at h
      subst h
      subst h2
      rfl
    · simp [h1, h2] at h

set_option maxRecDepth 100000 in
/-- The paths of `StripAuthSecrets` at a concrete input: the text of a configuration
with its secrets is stripped to the text with the three fields empty. -/
theorem StripAuthSecrets_paths_example :
    StripAuthSecrets jsonUnmarshalTable jsonMarshalTable "keycloak" fullConfigText
      = strippedConfigText ∧
    (∃ c2 : keycloakConfig,
      jsonUnmarshalTable
        (StripAuthSecrets jsonUnmarshalTable jsonMarshalTable "keycloak" fullConfigText)
        = Except.ok c2 ∧
      c2.AdminUser = "" ∧ c2.AdminPassword = "" ∧ c2.PublicKey = "" ∧
      c2.URL = fullConfig.URL ∧ c2.Realm = fullConfig.Realm ∧
      c2.ClientID = fullConfig.ClientID ∧ c2.Group = fullConfig.Group ∧
      c2.DisableLogout = fullConfig.DisableLogout ∧
      c2.DefaultPermissionAddSpace = fullConfig.DefaultPermissionAddSpace) ∧
    StripAuthSecrets jsonUnmarshalTable jsonMarshalTable "documize" fullConfigText
      = fullConfigText ∧
    (∀ config2 e, jsonUnmarshalTable config2 = Except.error e →
      StripAuthSecrets jsonUnmarshalTable jsonMarshalTable "keycloak" config2 = config2) ∧
    (∀ provider config2, provider ≠ "keycloak" →
      StripAuthSecrets jsonUnmarshalTable jsonMarshalTable provider config2 = config2) :=
  StripAuthSecrets_paths jsonUnmarshalTable jsonMarshalTable fullConfigText fullConfig
    strippedConfigText rfl rfl jsonTables_round_trip

/-! ## C19: the comparison of the request with the token -/

/-- C19: what the code does once the token is verified.  When the email claim is a
string that differs from the request's email, or both claims are strings and
`sub` differs from the request's remoteId, the handler answers unauthorized,
calls `addUser` for nobody and generates no Documize JWT.  When the email claim
is missing or not a string, or the email matches and the `sub` claim is missing
or not a string, the unchecked type assertion panics: the handler writes no
answer (in particular not unauthorized); it still creates nothing and
generates no JWT. -/
theorem C19_claims_compared (env : AuthEnv) (a : keycloakAuthRequest) (org : Organization)
    (ac : keycloakConfig) (claims : String → Option ClaimValue) :
    (assertString claims "email" = none →
      (afterVerifiedToken env a org ac claims).response = Response.Panicked ∧
      (afterVerifiedToken env a org ac claims).addUserCalls = [] ∧
      (afterVerifiedToken env a org ac claims).generatedJWT = none) ∧
    (assertString claims "email" = some a.Email → assertString claims "sub" = none →
      (afterVerifiedToken env a org ac claims).response = Response.Panicked ∧
      (afterVerifiedToken env a org ac claims).addUserCalls = [] ∧
      (afterVerifiedToken env a org ac claims).generatedJWT = none) ∧
    (∀ email, assertString claims "email" = some email → a.Email ≠ email →
      (afterVerifiedToken env a org ac claims).response = Response.Unauthorized ∧
      (afterVerifiedToken env a org ac claims).addUserCalls = [] ∧
      (afterVerifiedToken env a org ac claims).generatedJWT = none) ∧
    (∀ sub, assertString claims "email" = some a.Email → assertString claims "sub" = some sub →
      sub ≠ a.RemoteID →
      (afterVerifiedToken env a org ac claims).response = Response.Unauthorized ∧
      (afterVerifiedToken env a org ac claims).addUserCalls = [] ∧
      (afterVerifiedToken env a org ac claims).generatedJWT = none) := by
  refine ⟨?_, ?_, ?_, ?_⟩
  · intro h
    simp [afterVerifiedToken, h]
  · intro h1 h2
    simp [afterVerifiedToken, h1, h2]
  · intro email h1 hne
    simp [afterVerifiedToken, h1, hne]
  · intro sub h1 h2 hne
    simp [afterVerifiedToken, h1, h2, hne]

/-- C19 at the failing inputs: every step before the comparison succeeds; the verified
token has no `email` claim, or has the request's email and a numeric `sub`: the
handler panics.  With a token issued for another email it answers
unauthorized. -/
theorem C19_claims_compared_witness :
    (AuthenticateKeycloak (loginEnv claimsWithoutEmail)).response = Response.Panicked ∧
    (AuthenticateKeycloak (loginEnv claimsNumericSub)).response = Response.Panicked ∧
    (AuthenticateKeycloak (loginEnv claimsOtherEmail)).response = Response.Unauthorized :=
  ⟨((C19_claims_compared (loginEnv claimsWithoutEmail) normalizedRequest acme fullConfig
      claimsWithoutEmail).1 rfl).1,
    ((C19_claims_compared (loginEnv claimsNumericSub) normalizedRequest acme fullConfig
      claimsNumericSub).2.1 rfl rfl).1,
    ((C19_claims_compared (loginEnv claimsOtherEmail) normalizedRequest acme fullConfig
      claimsOtherEmail).2.2.1 "eve@example.org" rfl (by decide)).1⟩

/-! ## C20: the users SyncKeycloak adds -/

theorem usersToInsert_perm (kcUsers dmzUsers : List User) :
    (usersToInsert kcUsers dmzUsers).Perm
      (kcUsers.filter (fun k => decide (∀ d ∈ dmzUsers, k.Email ≠ d.Email))) := by
  unfold usersToInsert
  have hpred : ∀ k : User,
      (!(dmzUsers.insertionSort (fun a b => a.Email ≤ b.Email)).any (fun d => k.Email = d.Email))
        = decide (∀ d ∈ dmzUsers, k.Email ≠ d.Email) := by
    intro k
    have hmem : ∀ d, d ∈ dmzUsers.insertionSort (fun a b => a.Email ≤ b.Email) ↔ d ∈ dmzUsers :=
      fun d => (List.perm_insertionSort _ dmzUsers).mem_iff
    apply Bool.eq_iff_iff.mpr
    rw [Bool.not_eq_true', List.any_eq_false, decide_eq_true_eq]
    constructor
    · intro h d hd
      simpa using h d ((hmem d).mpr hd)
    · intro h d hd
      simpa using h d ((hmem d).mp hd)
  simp only [hpred]
  exact (List.perm_insertionSort _ kcUsers).filter _

/-- C20: what the code does.  Called by an administrator of an organization configured
for Keycloak, with both user lists fetched, SyncKeycloak calls `addUser` for
exactly the Keycloak users whose email is the email of no Documize user of the
organization (each once, sorted by email), with the configured permission, and
reports the two counts.  It makes no other call that writes: no call concerns a
user whose email is the email of a Documize user, so a Documize user whose
Keycloak record is disabled is left as it is, not marked inactive. -/
theorem C20_sync_adds_new_users (env : SyncEnv) (org : Organization) (c : keycloakConfig)
    (records : List keycloakUser) (dmzUsers : List User)
    (hadmin : env.Administrator = true)
    (horg : env.GetOrganization env.OrgID = Except.ok org)
    (hprovider : org.AuthProvider = "keycloak")
    (hconfig : env.unmarshalConfig org.AuthConfig = Except.ok c)
    (hfetch : env.fetch c = Except.ok records)
    (hdmz : env.GetUsersForOrganization = Except.ok dmzUsers) :
    ((SyncKeycloak env).addUserCalls.map Prod.fst).Perm
      ((KeycloakUsers env.fetch env.MakeInitials c).1.filter
        (fun k => decide (∀ d ∈ dmzUsers, k.Email ≠ d.Email))) ∧
    (∀ call ∈ (SyncKeycloak env).addUserCalls, call.2 = c.DefaultPermissionAddSpace) ∧
    (∀ call ∈ (SyncKeycloak env).addUserCalls, ∀ d ∈ dmzUsers, call.1.Email ≠ d.Email) ∧
    (SyncKeycloak env).response
      = SyncResponse.Result
          (SyncMessage.Synced records.length (SyncKeycloak env).addUserCalls.length) false := by
  have hk : KeycloakUsers env.fetch env.MakeInitials c
      = (records.map (fun kc =>
          { RefID := "", Firstname := kc.Firstname, Lastname := kc.Lastname, Email := kc.Email,
            Initials := env.MakeInitials kc.Firstname kc.Lastname, Active := kc.Enabled,
            Editor := false, Salt := "", Password := "", Accounts := [] }), none) := by
    simp [KeycloakUsers, hfetch]
  have hs : SyncKeycloak env
      = ⟨SyncResponse.Result (SyncMessage.Synced (KeycloakUsers env.fetch env.MakeInitials c).1.length
            (usersToInsert (KeycloakUsers env.fetch env.MakeInitials c).1 dmzUsers).length) false,
          (usersToInsert (KeycloakUsers env.fetch env.MakeInitials c).1 dmzUsers).map
            (fun u => (u, c.DefaultPermissionAddSpace))⟩ := by
    simp [SyncKeycloak, hadmin, horg, hprovider, hconfig, hk, hdmz]
  have hperm := usersToInsert_perm (KeycloakUsers env.fetch env.MakeInitials c).1 dmzUsers
  rw [hs]
  refine ⟨?_, ?_, ?_, ?_⟩
  · simpa [List.map_map, Function.comp_def] using hperm
  · intro call hcall
    obtain ⟨u, _, rfl⟩ := List.mem_map.mp hcall
    rfl
  · intro call hcall d hd
    obtain ⟨u, hu, rfl⟩ := List.mem_map.mp hcall
    have hu2 := (List.mem_filter.mp (hperm.mem_iff.mp hu)).2
    simp only [decide_eq_true_eq] at hu2
    exact hu2 d hd
  · simp [hk]

/-- C20 at the failing input: Keycloak returns `ada` disabled and the new user `bob`;
Documize holds `ada`, active.  The only call is `addUser` for `bob`: nothing
marks `ada` inactive. -/
theorem C20_sync_adds_new_users_witness :
    ada.Active = true ∧
    (∃ k ∈ keycloakRecords, k.Email = ada.Email ∧ k.Enabled = false) ∧
    (SyncKeycloak syncEnv).addUserCalls.map Prod.fst = [bob] ∧
    (SyncKeycloak syncEnv).response
      = SyncResponse.Result
          (SyncMessage.Synced 2 (SyncKeycloak syncEnv).addUserCalls.length) false := by
  obtain ⟨h1, _, _, h4⟩ := C20_sync_adds_new_users syncEnv acme fullConfig keycloakRecords [ada]
    rfl rfl rfl rfl rfl rfl
  have hf : (KeycloakUsers syncEnv.fetch syncEnv.MakeInitials fullConfig).1.filter
      (fun k => decide (∀ d ∈ [ada], k.Email ≠ d.Email)) = [bob] := by decide
  rw [hf] at h1
  exact ⟨rfl, by decide, List.perm_singleton.mp h1, h4⟩

/-! ## C21: the placeholders of GetPagesWhereIn -/

theorem splitOnChar_ne_nil (sep : Char) (l : List Char) : splitOnChar sep l ≠ [] := by
  induction l with
  | nil => simp [splitOnChar]
  | cons c cs ih =>
    unfold splitOnChar
    by_cases hc : c = sep
    · simp [hc]
    · rw [if_neg hc]
      cases h : splitOnChar sep cs with
      | nil => simp
      | cons piece pieces => simp

theorem splitOnChar_length (sep : Char) (l : List Char) :
    (splitOnChar sep l).length = l.count sep + 1 := by
  induction l with
  | nil => simp [splitOnChar]
  | cons c cs ih =>
    unfold splitOnChar
    by_cases hc : c = sep
    · subst hc
      simp [ih]
    · rw [if_neg hc]
      cases h : splitOnChar sep cs with
      | nil => exact absurd h (splitOnChar_ne_nil sep cs)
      | cons piece pieces =>
        rw [h] at ih
        have hne : (c == sep) = false := by simpa using hc
        simp only [List.length_cons] at ih ⊢
        rw [List.count_cons, hne]
        simpa using ih

theorem splitOnChar_no_sep (sep : Char) (l : List Char) :
    ∀ piece ∈ splitOnChar sep l, sep ∉ piece := by
  induction l with
  | nil => simp [splitOnChar]
  | cons c cs ih =>
    unfold splitOnChar
    by_cases hc : c = sep
    · rw [if_pos hc]
      intro piece hp
      rcases List.mem_cons.mp hp with rfl | hp
      · simp
      · exact ih piece hp
    · rw [if_neg hc]
      cases h : splitOnChar sep cs with
      | nil => exact absurd h (splitOnChar_ne_nil sep cs)
      | cons piece pieces =>
        rw [h] at ih
        intro x hx
        rcases List.mem_cons.mp hx with rfl | hx
        · intro hmem
          rcases List.mem_cons.mp hmem with hs | hs
          · exact hc hs.symm
          · exact ih piece (List.mem_cons_self _ _) hs
        · exact ih x (List.mem_cons_of_mem _ hx)

theorem splitOnChar_intercalate (sep : Char) (l : List Char) :
    List.intercalate [sep] (splitOnChar sep l) = l := by
  induction l with
  | nil => simp [splitOnChar, List.intercalate]
  | cons c cs ih =>
    unfold splitOnChar
    by_cases hc : c = sep
    · rw [if_pos hc]
      cases h : splitOnChar sep cs with
      | nil => exact absurd h (splitOnChar_ne_nil sep cs)
      | cons piece pieces =>
        rw [h] at ih
        subst hc
        rw [← ih]
        simp [List.intercalate, List.intersperse]
    · rw [if_neg hc]
      cases h : splitOnChar sep cs with
      | nil => exact absurd h (splitOnChar_ne_nil sep cs)
      | cons piece pieces =>
        rw [h] at ih
        rw [← ih]
        cases pieces <;> simp [List.intercalate, List.intersperse]

theorem repeatString_count (k : Nat) : (repeatString ",?" k).data.count '?' = k := by
  induction k with
  | zero => rfl
  | succ k ih =>
    have h1 : (",?" : String).data.count '?' = 1 := by decide
    rw [repeatString, String.data_append, List.count_append, ih, h1]
    omega

set_option maxRecDepth 100000 in
theorem whereInSelect_count : whereInSelect.data.count '?' = 3 := by decide

theorem whereInStatement_eq (ctx : Context) (documentID inPages : String) :
    whereInStatement ctx documentID inPages
      = some { sql := whereInSelect ++ repeatString ",?" ((SplitComma inPages).length - 1) ++
                 ") ORDER BY sequence",
               args := [ctx.OrgID, documentID] ++ SplitComma inPages } := by
  have hlen : 1 ≤ (SplitComma inPages).length := by
    simp only [SplitComma, List.length_map, splitOnChar_length]
    omega
  have hnot : ¬ (((SplitComma inPages).length : Int) - 1 < 0) := by omega
  have hnat : (((SplitComma inPages).length : Int) - 1).toNat = (SplitComma inPages).length - 1 := by
    omega
  simp only [whereInStatement, Repeat, hnot, if_false, hnat]

/-- C21: for every inPages string, `strings.Split(inPages, ",")` gives n ≥ 1 items, one
more than inPages has commas: the pieces without a comma which, joined by
commas, give inPages back (so the empty string gives one empty item, and
"a,,b" three).  The repeat count n - 1 is never negative, so `strings.Repeat`
does not panic and the statement is built; its SQL text contains exactly 2 + n
placeholders `?`, and the argument list is OrgID, documentID, then the n items
in order, of length 2 + n. -/
theorem C21_where_in_placeholders (f : Faults) (ctx : Context) (s : Store)
    (documentID inPages : String) :
    1 ≤ (SplitComma inPages).length ∧
    (SplitComma inPages).length = inPages.data.count ',' + 1 ∧
    (∀ item ∈ SplitComma inPages, ',' ∉ item.data) ∧
    List.intercalate [','] ((SplitComma inPages).map String.data) = inPages.data ∧
    (0 : Int) ≤ ((SplitComma inPages).length : Int) - 1 ∧
    (∃ q : WhereInStatement,
      whereInStatement ctx documentID inPages = some q ∧
      q.sql.data.count '?' = 2 + (SplitComma inPages).length ∧
      q.args = ctx.OrgID :: documentID :: SplitComma inPages ∧
      q.args.length = 2 + (SplitComma inPages).length) ∧
    (GetPagesWhereIn f ctx s documentID inPages).isSome = true := by
  have hlen : (SplitComma inPages).length = inPages.data.count ',' + 1 := by
    simp only [SplitComma, List.length_map, splitOnChar_length]
  have hst := whereInStatement_eq ctx documentID inPages
  refine ⟨by omega, hlen, ?_, ?_, by omega, ⟨_, hst, ?_, rfl, ?_⟩, ?_⟩
  · intro item hitem
    obtain ⟨piece, hp, rfl⟩ := List.mem_map.mp hitem
    exact splitOnChar_no_sep ',' inPages.data piece hp
  · have hmap : (SplitComma inPages).map String.data = splitOnChar ',' inPages.data := by
      simp [SplitComma, Function.comp_def]
    rw [hmap]
    exact splitOnChar_intercalate ',' inPages.data
  · have hsuffix : (") ORDER BY sequence" : String).data.count '?' = 0 := by decide
    simp only [String.data_append, List.count_append, whereInSelect_count, repeatString_count,
      hsuffix]
    omega
  · simp only [List.length_append, List.length_cons, List.length_nil]
  · unfold GetPagesWhereIn
    rw [hst]
    cases f.pagesRead <;> rfl

set_option maxRecDepth 100000 in
/-- C21 at concrete inputs: the empty string, a string with an empty item and a string
with a trailing comma. -/
theorem C21_where_in_placeholders_witness :
    SplitComma "" = [""] ∧ SplitComma "a,,b" = ["a", "", "b"] ∧ SplitComma "a," = ["a", ""] ∧
    (whereInStatement ctx1 "d1" "").map WhereInStatement.args = some ["o1", "d1", ""] ∧
    (∃ q : WhereInStatement,
      whereInStatement ctx1 "d1" "a,,b" = some q ∧
      q.sql.data.count '?' = 2 + (SplitComma "a,,b").length ∧
      q.args = ctx1.OrgID :: "d1" :: SplitComma "a,,b" ∧
      q.args.length = 2 + (SplitComma "a,,b").length) :=
  ⟨by decide, by decide, by decide, by decide,
    (C21_where_in_placeholders noFaults ctx1 emptyStore "d1" "a,,b").2.2.2.2.2.1⟩

end Documize
